import Mathlib

/-!
Verification development for the study-VC tracker bot (src/bot.js).

The SQLite database is modelled as three association lists (one per table);
`REAL` columns are modelled as exact rationals, timestamps and integer
columns as `Int` (JS millisecond epoch timestamps).  Each helper function of
the source (setTarget, clearTarget, addAccumulated, …) is translated to a
pure state transformer on `Store`; the three timer/event entry points
(voiceStateUpdate handler, the 10-second periodic check, the daily reset
job) become functions `Store → Store × List Effect`, where `Effect` records
the outbound side effects (DMs, kicks, channel announcements) the code
attempts.  External collaborators (guild cache hits, member fetches,
permissions, role positions, kick success) are inputs gathered in `World`.
-/

namespace VCBot

/-- Identifier pair `(guild_id, user_id)` — both TEXT columns in the schema. -/
abbrev Key := String × String

/-- Row of the `targets` table (`CREATE TABLE targets` in src/bot.js). -/
structure TargetRec where
  target_seconds : Int
  accumulated_seconds : Int
  session_start : Option Int
  deriving DecidableEq, Repr

/-- Row of the `daily_goals` table.  `goal_hours`/`achieved_hours` are SQLite
`REAL`; they are modelled as exact rationals. -/
structure DailyGoalRec where
  goal_hours : ℚ
  achieved_hours : ℚ
  session_start : Option Int
  deriving DecidableEq, Repr

/-- Row of the `todos` table (`task_id` is the AUTOINCREMENT primary key). -/
structure TodoRec where
  guild_id : String
  user_id : String
  task_id : Nat
  task : String
  completed : Bool
  deriving DecidableEq, Repr

/-- The whole database: three tables plus the AUTOINCREMENT counter. -/
structure Store where
  targets : List (Key × TargetRec)
  daily_goals : List (Key × DailyGoalRec)
  todos : List TodoRec
  next_task_id : Nat
  deriving DecidableEq, Repr

/-- Freshly created database. -/
def Store.init : Store := ⟨[], [], [], 1⟩

/-- Keys of the `targets` table are unique (its `(guild_id, user_id)` PRIMARY
KEY); states reachable from `Store.init` satisfy this. -/
def Store.twf (st : Store) : Prop := (st.targets.map Prod.fst).Nodup

/-- Keys of the `daily_goals` table are unique (`(guild_id, user_id)` PRIMARY
KEY). -/
def Store.dwf (st : Store) : Prop := (st.daily_goals.map Prod.fst).Nodup

instance (st : Store) : Decidable st.twf := by unfold Store.twf; infer_instance

instance (st : Store) : Decidable st.dwf := by unfold Store.dwf; infer_instance

/-! ### VC tracker helpers (src/bot.js lines 90–153) -/

/-- The `setTarget`: `INSERT … VALUES (?, ?, ?, 0, NULL) ON CONFLICT(guild_id,
user_id) DO UPDATE SET target_seconds = excluded.target_seconds,
accumulated_seconds = 0, session_start = NULL`. -/
def setTarget (g u : String) (seconds : Int) (st : Store) : Store :=
  if st.targets.any (fun e => e.1 = (g, u)) then
    { st with targets :=
        st.targets.map (fun e => if e.1 = (g, u) then ((g, u), ⟨seconds, 0, none⟩) else e) }
  else
    { st with targets := ((g, u), ⟨seconds, 0, none⟩) :: st.targets }

/-- The `clearTarget`: `DELETE FROM targets WHERE guild_id = ? AND user_id = ?`. -/
def clearTarget (g u : String) (st : Store) : Store :=
  { st with targets := st.targets.filter (fun e => e.1 ≠ (g, u)) }

/-- The `getTarget`: `SELECT * FROM targets WHERE guild_id = ? AND user_id = ?`,
resolving `row || null`. -/
def getTarget (g u : String) (st : Store) : Option TargetRec :=
  (st.targets.find? (fun e => e.1 = (g, u))).map Prod.snd

/-- The `setSessionStart`: `UPDATE targets SET session_start = ? WHERE …`. -/
def setSessionStart (g u : String) (ts : Int) (st : Store) : Store :=
  { st with targets :=
      st.targets.map (fun e => if e.1 = (g, u) then (e.1, { e.2 with session_start := some ts }) else e) }

/-- The `addAccumulated`: `UPDATE targets SET accumulated_seconds =
accumulated_seconds + ?, session_start = NULL WHERE …` — one statement
updating both columns. -/
def addAccumulated (g u : String) (addSeconds : Int) (st : Store) : Store :=
  { st with targets :=
      st.targets.map (fun e => if e.1 = (g, u) then
        (e.1, ⟨e.2.target_seconds, e.2.accumulated_seconds + addSeconds, none⟩) else e) }

/-- The `getAllActiveSessions`: `SELECT * FROM targets WHERE session_start IS NOT
NULL`. -/
def getAllActiveSessions (st : Store) : List (Key × TargetRec) :=
  st.targets.filter (fun e => e.2.session_start.isSome)

/-! ### To-do helpers (src/bot.js lines 156–194) -/

/-- The `addTodo`: `INSERT INTO todos (guild_id, user_id, task, completed) VALUES
(?, ?, ?, 0)`; `task_id` comes from AUTOINCREMENT. -/
def addTodo (g u task : String) (st : Store) : Store :=
  { st with todos := st.todos ++ [⟨g, u, st.next_task_id, task, false⟩],
            next_task_id := st.next_task_id + 1 }

/-- The `completeTodo`: `UPDATE todos SET completed = 1 WHERE guild_id = ? AND
user_id = ? AND task_id = ?`. -/
def completeTodo (g u : String) (taskId : Nat) (st : Store) : Store :=
  { st with todos := st.todos.map (fun t =>
      if t.guild_id = g ∧ t.user_id = u ∧ t.task_id = taskId then
        { t with completed := true } else t) }

/-- The `deleteTodo`: `DELETE FROM todos WHERE guild_id = ? AND user_id = ? AND
task_id = ?`. -/
def deleteTodo (g u : String) (taskId : Nat) (st : Store) : Store :=
  { st with todos := st.todos.filter (fun t =>
      ¬ (t.guild_id = g ∧ t.user_id = u ∧ t.task_id = taskId)) }

/-! ### Daily goal helpers (src/bot.js lines 197–240) -/

/-- The `setDailyGoal`: `INSERT … VALUES (?, ?, ?, 0, NULL) ON CONFLICT … DO
UPDATE SET goal_hours = excluded.goal_hours, achieved_hours = 0,
session_start = NULL`. -/
def setDailyGoal (g u : String) (hours : ℚ) (st : Store) : Store :=
  if st.daily_goals.any (fun e => e.1 = (g, u)) then
    { st with daily_goals :=
        st.daily_goals.map (fun e => if e.1 = (g, u) then ((g, u), ⟨hours, 0, none⟩) else e) }
  else
    { st with daily_goals := ((g, u), ⟨hours, 0, none⟩) :: st.daily_goals }

/-- The `getDailyGoal`: `SELECT * FROM daily_goals WHERE guild_id = ? AND
user_id = ?`, resolving `row || null`. -/
def getDailyGoal (g u : String) (st : Store) : Option DailyGoalRec :=
  (st.daily_goals.find? (fun e => e.1 = (g, u))).map Prod.snd

/-- The `addAchievedHours`: `UPDATE daily_goals SET achieved_hours =
achieved_hours + ? WHERE …` (touches no other column). -/
def addAchievedHours (g u : String) (addHours : ℚ) (st : Store) : Store :=
  { st with daily_goals :=
      st.daily_goals.map (fun e => if e.1 = (g, u) then
        (e.1, { e.2 with achieved_hours := e.2.achieved_hours + addHours }) else e) }

/-- The `getAllDailyGoals`: `SELECT * FROM daily_goals`. -/
def getAllDailyGoals (st : Store) : List (Key × DailyGoalRec) :=
  st.daily_goals

/-- The `clearDailyGoals`: `DELETE FROM daily_goals`. -/
def clearDailyGoals (st : Store) : Store :=
  { st with daily_goals := [] }

/-- The `DELETE FROM todos` (daily reset, src/bot.js line 338). -/
def deleteAllTodos (st : Store) : Store :=
  { st with todos := [] }

/-! ### External collaborators and side effects -/

/-- Inputs from the Discord environment, indexed by guild (and user) ids:
cache hits, fetch successes, the kick permission of the bot, role positions, and
whether a `member.kick` call resolves rather than throws. -/
structure World where
  guildOk : String → Bool
  memberOk : String → String → Bool
  kickPerm : String → Bool
  botRolePos : String → Int
  memberRolePos : String → String → Int
  kickOk : String → String → Bool
  announceOk : String → Bool

/-- Outbound side effects the code attempts (DM sends, kicks, channel
announcements, error logs).  Numeric payloads record what the message text
interpolates: e.g. `kick g u acc tgt` is the kick whose reason string is
`Left VC before reaching study target ((acc/3600).toFixed(2) /
(tgt/3600).toFixed(2) hours)`. -/
inductive Effect where
  | dmReached (g u : String)
  | dmReachedSampler (g u : String) (targetSeconds : Int)
  | announceNoKick (g u : String)
  | dmHierarchy (g u : String)
  | kick (g u : String) (acc tgt : Int)
  | dmKicked (g u : String) (acc tgt : Int)
  | logKickError (g u : String)
  | kickDaily (g u : String) (achieved goal : ℚ)
  | dmDailyKicked (g u : String) (achieved goal : ℚ)
  deriving DecidableEq, Repr

/-- The `(guild_id, user_id)` pair an effect concerns. -/
def Effect.key : Effect → Key
  | .dmReached g u => (g, u)
  | .dmReachedSampler g u _ => (g, u)
  | .announceNoKick g u => (g, u)
  | .dmHierarchy g u => (g, u)
  | .kick g u _ _ => (g, u)
  | .dmKicked g u _ _ => (g, u)
  | .logKickError g u => (g, u)
  | .kickDaily g u _ _ => (g, u)
  | .dmDailyKicked g u _ _ => (g, u)

/-! ### Presence transition handler (src/bot.js lines 347–401) -/

/-- Elapsed seconds on leave: `let elapsed = 0; if (row.session_start)
elapsed = Math.floor((Date.now() - row.session_start) / 1000)`.  JS
truthiness makes a stored timestamp of `0` act like NULL; `Math.floor` of a
real quotient is integer floor division (`Int.fdiv`). -/
def leaveElapsed (now : Int) (ss : Option Int) : Int :=
  match ss with
  | some s0 => if s0 = 0 then 0 else Int.fdiv (now - s0) 1000
  | none => 0

/-- The tail of the leave branch (src/bot.js lines 371–399), after the
re-read `updated = await getTarget(...)` came back non-null: the completion
check (congratulate and `clearTarget`), else the early-leave enforcement
(permission check → fallback announcement; role-hierarchy check → DM; else
kick + DM + `clearTarget`, where a throwing kick is caught and logged,
skipping the DM and the `clearTarget`). -/
def leaveOutcome (w : World) (g u : String) (updated : TargetRec) (st3 : Store) :
    Store × List Effect :=
  if updated.accumulated_seconds ≥ updated.target_seconds then
    (clearTarget g u st3,
     if w.memberOk g u then [Effect.dmReached g u] else [])
  else
    if !w.memberOk g u then (st3, []) else
    if !w.kickPerm g then
      (st3, if w.announceOk g then [Effect.announceNoKick g u] else [])
    else if w.memberRolePos g u ≥ w.botRolePos g then
      (st3, [Effect.dmHierarchy g u])
    else if w.kickOk g u then
      (clearTarget g u st3,
       [Effect.kick g u updated.accumulated_seconds updated.target_seconds,
        Effect.dmKicked g u updated.accumulated_seconds updated.target_seconds])
    else (st3, [Effect.logKickError g u])

/-- The `voiceStateUpdate` handler.  `oldCh`/`newCh` say whether
`oldState.channelId`/`newState.channelId` are truthy; `isBot` is
`newState.member.user.bot`.  Returns the new database plus attempted side
effects, in program order. -/
def voiceStateUpdate (w : World) (g u : String) (oldCh newCh isBot : Bool)
    (now : Int) (st : Store) : Store × List Effect :=
  if isBot then (st, []) else
  match getTarget g u st with
  | none => (st, [])
  | some row =>
    let st1 := if !oldCh && newCh then setSessionStart g u now st else st
    if oldCh && !newCh then
      let elapsed := leaveElapsed now row.session_start
      let st2 := addAccumulated g u elapsed st1
      let st3 := if (getDailyGoal g u st2).isSome then
                   addAchievedHours g u ((elapsed : ℚ) / 3600) st2
                 else st2
      match getTarget g u st3 with
      | none => (st3, [])
      | some updated => leaveOutcome w g u updated st3
    else (st1, [])

/-! ### Periodic sampler (src/bot.js lines 292–318) -/

/-- One iteration of the sampler loop body, for snapshot row `s` (fields
read from the `db.all` snapshot, not re-read): compute
`elapsed = Math.floor((now - s.session_start) / 1000)` and
`total = s.accumulated_seconds + elapsed`; add `elapsed / 3600` to the
daily goal if one exists; on `total >= s.target_seconds`, look up the guild
(`continue` on a cache miss), DM the member if fetched, and `clearTarget`. -/
def tickStep (w : World) (now : Int) (acc : Store × List Effect)
    (s : Key × TargetRec) : Store × List Effect :=
  match s.2.session_start with
  | none => acc
  | some s0 =>
    let elapsed := Int.fdiv (now - s0) 1000
    let total := s.2.accumulated_seconds + elapsed
    let st1 := if (getDailyGoal s.1.1 s.1.2 acc.1).isSome then
                 addAchievedHours s.1.1 s.1.2 ((elapsed : ℚ) / 3600) acc.1
               else acc.1
    if total ≥ s.2.target_seconds then
      if w.guildOk s.1.1 then
        (clearTarget s.1.1 s.1.2 st1,
         if w.memberOk s.1.1 s.1.2 then
           acc.2 ++ [Effect.dmReachedSampler s.1.1 s.1.2 s.2.target_seconds]
         else acc.2)
      else (st1, acc.2)
    else (st1, acc.2)

/-- One tick of the 10-second `setInterval` check: iterate the loop body
over the `getAllActiveSessions` snapshot. -/
def periodicTick (w : World) (now : Int) (st : Store) : Store × List Effect :=
  (getAllActiveSessions st).foldl (tickStep w now) (st, [])

/-! ### Daily reset job (src/bot.js lines 321–343) -/

/-- One iteration of the daily reset loop: for a snapshot `daily_goals` row
with `achieved_hours < goal_hours`, look up the guild (`continue` on a
cache miss), fetch the member, and if fetched attempt the kick and the DM
(both `.catch`-swallowed, so they are attempts and never mutate the
database). -/
def rolloverStep (w : World) (effs : List Effect) (e : Key × DailyGoalRec) :
    List Effect :=
  if e.2.achieved_hours < e.2.goal_hours then
    if w.guildOk e.1.1 then
      if w.memberOk e.1.1 e.1.2 then
        effs ++ [Effect.kickDaily e.1.1 e.1.2 e.2.achieved_hours e.2.goal_hours,
                 Effect.dmDailyKicked e.1.1 e.1.2 e.2.achieved_hours e.2.goal_hours]
      else effs
    else effs
  else effs

/-- The `schedule.scheduleJob` daily reset: enforce every unmet daily goal
(best effort), then `clearDailyGoals` and `DELETE FROM todos`, regardless of
the enforcement outcomes. -/
def dailyRollover (w : World) (st : Store) : Store × List Effect :=
  (deleteAllTodos (clearDailyGoals st),
   (getAllDailyGoals st).foldl (rolloverStep w) [])

/-! ### Slash commands (src/bot.js lines 404–455) -/

/-- The `/settarget minutes`: reject `minutes <= 0` (reply only, no database
write); otherwise `setTarget(guild.id, user.id, Math.floor(minutes * 60))`.
The Bool reports whether the command was accepted. -/
def settargetCommand (g u : String) (minutes : ℚ) (st : Store) : Store × Bool :=
  if minutes ≤ 0 then (st, false)
  else (setTarget g u ⌊minutes * 60⌋ st, true)

/-- The `/setgoal hours`: reject `hours <= 0`; otherwise `setDailyGoal`. -/
def setgoalCommand (g u : String) (hours : ℚ) (st : Store) : Store × Bool :=
  if hours ≤ 0 then (st, false)
  else (setDailyGoal g u hours st, true)

/-! ### All database-mutating entry points, as one operation type -/

/-- Every way the program mutates the database: the seven slash commands,
the voice-state handler, a sampler tick, and the daily reset. -/
inductive Op where
  | settarget (g u : String) (minutes : ℚ)
  | cleartarget (g u : String)
  | setgoal (g u : String) (hours : ℚ)
  | addtodo (g u task : String)
  | donetodo (g u : String) (id : Nat)
  | deltodo (g u : String) (id : Nat)
  | voice (w : World) (g u : String) (oldCh newCh isBot : Bool) (now : Int)
  | tick (w : World) (now : Int)
  | rollover (w : World)

/-- The database transition each operation performs. -/
def applyOp : Op → Store → Store
  | .settarget g u m, st => (settargetCommand g u m st).1
  | .cleartarget g u, st => clearTarget g u st
  | .setgoal g u h, st => (setgoalCommand g u h st).1
  | .addtodo g u task, st => addTodo g u task st
  | .donetodo g u i, st => completeTodo g u i st
  | .deltodo g u i, st => deleteTodo g u i st
  | .voice w g u oc nc b now, st => (voiceStateUpdate w g u oc nc b now st).1
  | .tick w now, st => (periodicTick w now st).1
  | .rollover w, st => (dailyRollover w st).1

/-- Run a sequence of operations from a starting state. -/
def applyOps (ops : List Op) (st : Store) : Store :=
  ops.foldl (fun s op => applyOp op s) st

/-! ### Association-list lemmas -/

theorem find?_map_if_self {α : Type} (l : List (Key × α)) (k : Key)
    (f : Key × α → Key × α) (hf : ∀ e : Key × α, e.1 = k → (f e).1 = k) :
    (l.map (fun e => if e.1 = k then f e else e)).find? (fun e => e.1 = k) =
      (l.find? (fun e => e.1 = k)).map f := by
  induction l with
  | nil => simp
  | cons a l ih =>
    by_cases ha : a.1 = k
    · rw [List.map_cons, if_pos ha,
        List.find?_cons_of_pos _ (by simpa using hf a ha),
        List.find?_cons_of_pos _ (by simpa using ha)]
      rfl
    · rw [List.map_cons, if_neg ha,
        List.find?_cons_of_neg _ (by simpa using ha),
        List.find?_cons_of_neg _ (by simpa using ha)]
      exact ih

theorem find?_map_if_other {α : Type} (l : List (Key × α)) (k k' : Key)
    (hk : k' ≠ k) (f : Key × α → Key × α)
    (hf : ∀ e : Key × α, e.1 = k → (f e).1 = k) :
    (l.map (fun e => if e.1 = k then f e else e)).find? (fun e => e.1 = k') =
      l.find? (fun e => e.1 = k') := by
  induction l with
  | nil => simp
  | cons a l ih =>
    by_cases ha : a.1 = k
    · have h2 : ¬ (f a).1 = k' := by
        rw [hf a ha]; exact fun hh => hk hh.symm
      have h3 : ¬ a.1 = k' := by
        rw [ha]; exact fun hh => hk hh.symm
      rw [List.map_cons, if_pos ha,
        List.find?_cons_of_neg _ (by simpa using h2),
        List.find?_cons_of_neg _ (by simpa using h3)]
      exact ih
    · rw [List.map_cons, if_neg ha]
      by_cases ha2 : a.1 = k'
      · rw [List.find?_cons_of_pos _ (by simpa using ha2),
          List.find?_cons_of_pos _ (by simpa using ha2)]
      · rw [List.find?_cons_of_neg _ (by simpa using ha2),
          List.find?_cons_of_neg _ (by simpa using ha2)]
        exact ih

theorem find?_filter_of_imp {α : Type} (l : List α) (p q : α → Bool)
    (h : ∀ x, p x = true → q x = true) : (l.filter q).find? p = l.find? p := by
  induction l with
  | nil => simp
  | cons a l ih =>
    by_cases hq : q a = true
    · cases hpa : p a with
      | true =>
        rw [List.filter_cons_of_pos hq, List.find?_cons_of_pos _ hpa,
          List.find?_cons_of_pos _ hpa]
      | false =>
        rw [List.filter_cons_of_pos hq, List.find?_cons_of_neg _ (by simp [hpa]),
          List.find?_cons_of_neg _ (by simp [hpa])]
        exact ih
    · have hp : p a = false := by
        cases hpa : p a with
        | false => rfl
        | true => exact absurd (h a hpa) hq
      rw [List.filter_cons_of_neg (by simpa using hq),
        List.find?_cons_of_neg _ (by simp [hp])]
      exact ih

theorem find?_filter_none {α : Type} (l : List α) (p q : α → Bool)
    (h : ∀ x, q x = true → p x = false) : (l.filter q).find? p = none := by
  rw [List.find?_eq_none]
  intro x hx
  have := List.mem_filter.mp hx
  simp [h x this.2]

/-! ### Lookup behaviour of each table operation -/

theorem getTarget_setTarget_self (g u : String) (s : Int) (st : Store) :
    getTarget g u (setTarget g u s st) = some ⟨s, 0, none⟩ := by
  unfold getTarget setTarget
  by_cases hany : st.targets.any (fun e => e.1 = (g, u))
  · rw [if_pos hany]
    have h1 := find?_map_if_self st.targets (g, u)
      (fun _ => ((g, u), (⟨s, 0, none⟩ : TargetRec))) (fun e _ => rfl)
    rw [h1]
    rcases hsome : st.targets.find? (fun e => decide (e.1 = (g, u))) with _ | e0
    · rcases List.any_eq_true.mp hany with ⟨x, hx, hpx⟩
      have := List.find?_eq_none.mp hsome x hx
      simp_all
    · rw [hsome]
      rfl
  · rw [if_neg hany]
    rw [List.find?_cons_of_pos _ (by simp)]
    rfl

theorem getTarget_setTarget_other (g u g' u' : String) (s : Int) (st : Store)
    (h : (g', u') ≠ (g, u)) :
    getTarget g' u' (setTarget g u s st) = getTarget g' u' st := by
  unfold getTarget setTarget
  by_cases hany : st.targets.any (fun e => e.1 = (g, u))
  · rw [if_pos hany]
    rw [find?_map_if_other st.targets (g, u) (g', u') h
      (fun _ => ((g, u), (⟨s, 0, none⟩ : TargetRec))) (fun e _ => rfl)]
  · rw [if_neg hany]
    rw [List.find?_cons_of_neg _ (by simpa using h.symm)]

theorem getTarget_clearTarget_self (g u : String) (st : Store) :
    getTarget g u (clearTarget g u st) = none := by
  unfold getTarget clearTarget
  rw [find?_filter_none]
  · rfl
  · intro x hx
    simp only [decide_eq_true_eq] at hx ⊢
    simp [hx]

theorem getTarget_clearTarget_other (g u g' u' : String) (st : Store)
    (h : (g', u') ≠ (g, u)) :
    getTarget g' u' (clearTarget g u st) = getTarget g' u' st := by
  unfold getTarget clearTarget
  rw [find?_filter_of_imp]
  intro x hx
  simp only [decide_eq_true_eq] at hx ⊢
  simp [hx, h]

theorem getTarget_setSessionStart_self (g u : String) (ts : Int) (st : Store) :
    getTarget g u (setSessionStart g u ts st) =
      (getTarget g u st).map (fun r => { r with session_start := some ts }) := by
  unfold getTarget setSessionStart
  rw [find?_map_if_self st.targets (g, u)
    (fun e => (e.1, { e.2 with session_start := some ts })) (fun e he => he)]
  cases st.targets.find? (fun e => decide (e.1 = (g, u))) <;> rfl

theorem getTarget_setSessionStart_other (g u g' u' : String) (ts : Int) (st : Store)
    (h : (g', u') ≠ (g, u)) :
    getTarget g' u' (setSessionStart g u ts st) = getTarget g' u' st := by
  unfold getTarget setSessionStart
  rw [find?_map_if_other st.targets (g, u) (g', u') h
    (fun e => (e.1, { e.2 with session_start := some ts })) (fun e he => he)]

theorem getTarget_addAccumulated_self (g u : String) (d : Int) (st : Store) :
    getTarget g u (addAccumulated g u d st) =
      (getTarget g u st).map
        (fun r => ⟨r.target_seconds, r.accumulated_seconds + d, none⟩) := by
  unfold getTarget addAccumulated
  rw [find?_map_if_self st.targets (g, u)
    (fun e => (e.1, ⟨e.2.target_seconds, e.2.accumulated_seconds + d, none⟩))
    (fun e he => he)]
  cases st.targets.find? (fun e => decide (e.1 = (g, u))) <;> rfl

theorem getTarget_addAccumulated_other (g u g' u' : String) (d : Int) (st : Store)
    (h : (g', u') ≠ (g, u)) :
    getTarget g' u' (addAccumulated g u d st) = getTarget g' u' st := by
  unfold getTarget addAccumulated
  rw [find?_map_if_other st.targets (g, u) (g', u') h
    (fun e => (e.1, ⟨e.2.target_seconds, e.2.accumulated_seconds + d, none⟩))
    (fun e he => he)]

theorem getDailyGoal_setDailyGoal_self (g u : String) (h : ℚ) (st : Store) :
    getDailyGoal g u (setDailyGoal g u h st) = some ⟨h, 0, none⟩ := by
  unfold getDailyGoal setDailyGoal
  by_cases hany : st.daily_goals.any (fun e => e.1 = (g, u))
  · rw [if_pos hany]
    have h1 := find?_map_if_self st.daily_goals (g, u)
      (fun _ => ((g, u), (⟨h, 0, none⟩ : DailyGoalRec))) (fun e _ => rfl)
    rw [h1]
    rcases hsome : st.daily_goals.find? (fun e => decide (e.1 = (g, u))) with _ | e0
    · rcases List.any_eq_true.mp hany with ⟨x, hx, hpx⟩
      have := List.find?_eq_none.mp hsome x hx
      simp_all
    · rw [hsome]
      rfl
  · rw [if_neg hany]
    rw [List.find?_cons_of_pos _ (by simp)]
    rfl

theorem getDailyGoal_setDailyGoal_other (g u g' u' : String) (h : ℚ) (st : Store)
    (hne : (g', u') ≠ (g, u)) :
    getDailyGoal g' u' (setDailyGoal g u h st) = getDailyGoal g' u' st := by
  unfold getDailyGoal setDailyGoal
  by_cases hany : st.daily_goals.any (fun e => e.1 = (g, u))
  · rw [if_pos hany]
    rw [find?_map_if_other st.daily_goals (g, u) (g', u') hne
      (fun _ => ((g, u), (⟨h, 0, none⟩ : DailyGoalRec))) (fun e _ => rfl)]
  · rw [if_neg hany]
    rw [List.find?_cons_of_neg _ (by simpa using hne.symm)]

theorem getDailyGoal_addAchievedHours_self (g u : String) (d : ℚ) (st : Store) :
    getDailyGoal g u (addAchievedHours g u d st) =
      (getDailyGoal g u st).map
        (fun r => { r with achieved_hours := r.achieved_hours + d }) := by
  unfold getDailyGoal addAchievedHours
  rw [find?_map_if_self st.daily_goals (g, u)
    (fun e => (e.1, { e.2 with achieved_hours := e.2.achieved_hours + d }))
    (fun e he => he)]
  cases st.daily_goals.find? (fun e => decide (e.1 = (g, u))) <;> rfl

theorem getDailyGoal_addAchievedHours_other (g u g' u' : String) (d : ℚ) (st : Store)
    (h : (g', u') ≠ (g, u)) :
    getDailyGoal g' u' (addAchievedHours g u d st) = getDailyGoal g' u' st := by
  unfold getDailyGoal addAchievedHours
  rw [find?_map_if_other st.daily_goals (g, u) (g', u') h
    (fun e => (e.1, { e.2 with achieved_hours := e.2.achieved_hours + d }))
    (fun e he => he)]

/-- Target-table operations do not touch `daily_goals`. -/
theorem daily_goals_clearTarget (g u : String) (st : Store) :
    (clearTarget g u st).daily_goals = st.daily_goals := rfl

theorem daily_goals_addAccumulated (g u : String) (d : Int) (st : Store) :
    (addAccumulated g u d st).daily_goals = st.daily_goals := rfl

theorem daily_goals_setSessionStart (g u : String) (ts : Int) (st : Store) :
    (setSessionStart g u ts st).daily_goals = st.daily_goals := rfl

/-- Daily-goal operations do not touch `targets`. -/
theorem targets_addAchievedHours (g u : String) (d : ℚ) (st : Store) :
    (addAchievedHours g u d st).targets = st.targets := rfl

theorem getTarget_addAchievedHours (g u g' u' : String) (d : ℚ) (st : Store) :
    getTarget g' u' (addAchievedHours g u d st) = getTarget g' u' st := rfl

theorem getDailyGoal_clearTarget (g u g' u' : String) (st : Store) :
    getDailyGoal g' u' (clearTarget g u st) = getDailyGoal g' u' st := rfl

theorem getDailyGoal_addAccumulated (g u g' u' : String) (d : Int) (st : Store) :
    getDailyGoal g' u' (addAccumulated g u d st) = getDailyGoal g' u' st := rfl


/-! ### Behaviour of the voice-state handler -/

theorem leaveOutcome_daily (w : World) (g u g' u' : String) (upd : TargetRec)
    (s : Store) :
    getDailyGoal g' u' (leaveOutcome w g u upd s).1 = getDailyGoal g' u' s := by
  unfold leaveOutcome
  split_ifs <;> simp [getDailyGoal_clearTarget]

theorem leaveOutcome_spec (w : World) (g u : String) (upd : TargetRec) (s : Store) :
    (upd.target_seconds ≤ upd.accumulated_seconds →
       leaveOutcome w g u upd s =
         (clearTarget g u s,
          if w.memberOk g u then [Effect.dmReached g u] else [])) ∧
    (upd.accumulated_seconds < upd.target_seconds →
      (w.memberOk g u = false → leaveOutcome w g u upd s = (s, [])) ∧
      (w.memberOk g u = true →
        (w.kickPerm g = false →
           leaveOutcome w g u upd s =
             (s, if w.announceOk g then [Effect.announceNoKick g u] else [])) ∧
        (w.kickPerm g = true →
          (w.botRolePos g ≤ w.memberRolePos g u →
             leaveOutcome w g u upd s = (s, [Effect.dmHierarchy g u])) ∧
          (w.memberRolePos g u < w.botRolePos g →
            (w.kickOk g u = true →
               leaveOutcome w g u upd s =
                 (clearTarget g u s,
                  [Effect.kick g u upd.accumulated_seconds upd.target_seconds,
                   Effect.dmKicked g u upd.accumulated_seconds upd.target_seconds])) ∧
            (w.kickOk g u = false →
               leaveOutcome w g u upd s = (s, [Effect.logKickError g u])))))) := by
  constructor
  · intro hr
    simp [leaveOutcome, ge_iff_le, hr]
  · intro hlt
    have hr : ¬ upd.target_seconds ≤ upd.accumulated_seconds := not_le.mpr hlt
    refine ⟨fun hmem => ?_, fun hmem => ⟨fun hperm => ?_, fun hperm =>
      ⟨fun hpos => ?_, fun hpos => ⟨fun hk => ?_, fun hk => ?_⟩⟩⟩⟩
    · simp [leaveOutcome, ge_iff_le, hr, hmem]
    · simp [leaveOutcome, ge_iff_le, hr, hmem, hperm]
    · simp [leaveOutcome, ge_iff_le, hr, hmem, hperm, hpos]
    · simp [leaveOutcome, ge_iff_le, hr, hmem, hperm, not_le.mpr hpos, hk]
    · simp [leaveOutcome, ge_iff_le, hr, hmem, hperm, not_le.mpr hpos, hk]

theorem voice_no_target (w : World) (g u : String) (oldCh newCh isBot : Bool)
    (now : Int) (st : Store) (h : getTarget g u st = none) :
    voiceStateUpdate w g u oldCh newCh isBot now st = (st, []) := by
  cases isBot <;> simp [voiceStateUpdate, h]

theorem voice_bot (w : World) (g u : String) (oldCh newCh : Bool)
    (now : Int) (st : Store) :
    voiceStateUpdate w g u oldCh newCh true now st = (st, []) := by
  simp [voiceStateUpdate]

theorem voice_join (w : World) (g u : String) (now : Int) (st : Store)
    (rec : TargetRec) (hget : getTarget g u st = some rec) :
    voiceStateUpdate w g u false true false now st =
      (setSessionStart g u now st, []) := by
  simp [voiceStateUpdate, hget]

theorem voice_leave_spec (w : World) (g u : String) (now : Int) (st : Store)
    (rec : TargetRec) (hget : getTarget g u st = some rec) :
    getDailyGoal g u (voiceStateUpdate w g u true false false now st).1 =
      (getDailyGoal g u st).map
        (fun dg => { dg with achieved_hours :=
            dg.achieved_hours + (leaveElapsed now rec.session_start : ℚ) / 3600 }) ∧
    (rec.target_seconds ≤ rec.accumulated_seconds + leaveElapsed now rec.session_start →
       getTarget g u (voiceStateUpdate w g u true false false now st).1 = none ∧
       (voiceStateUpdate w g u true false false now st).2 =
         (if w.memberOk g u then [Effect.dmReached g u] else [])) ∧
    (rec.accumulated_seconds + leaveElapsed now rec.session_start < rec.target_seconds →
      (w.memberOk g u = false →
         getTarget g u (voiceStateUpdate w g u true false false now st).1 =
           some ⟨rec.target_seconds,
                 rec.accumulated_seconds + leaveElapsed now rec.session_start, none⟩ ∧
         (voiceStateUpdate w g u true false false now st).2 = []) ∧
      (w.memberOk g u = true →
        (w.kickPerm g = false →
           getTarget g u (voiceStateUpdate w g u true false false now st).1 =
             some ⟨rec.target_seconds,
                   rec.accumulated_seconds + leaveElapsed now rec.session_start, none⟩ ∧
           (voiceStateUpdate w g u true false false now st).2 =
             (if w.announceOk g then [Effect.announceNoKick g u] else [])) ∧
        (w.kickPerm g = true →
          (w.botRolePos g ≤ w.memberRolePos g u →
             getTarget g u (voiceStateUpdate w g u true false false now st).1 =
               some ⟨rec.target_seconds,
                     rec.accumulated_seconds + leaveElapsed now rec.session_start, none⟩ ∧
             (voiceStateUpdate w g u true false false now st).2 =
               [Effect.dmHierarchy g u]) ∧
          (w.memberRolePos g u < w.botRolePos g →
            (w.kickOk g u = true →
               getTarget g u (voiceStateUpdate w g u true false false now st).1 = none ∧
               (voiceStateUpdate w g u true false false now st).2 =
                 [Effect.kick g u
                    (rec.accumulated_seconds + leaveElapsed now rec.session_start)
                    rec.target_seconds,
                  Effect.dmKicked g u
                    (rec.accumulated_seconds + leaveElapsed now rec.session_start)
                    rec.target_seconds]) ∧
            (w.kickOk g u = false →
               getTarget g u (voiceStateUpdate w g u true false false now st).1 =
                 some ⟨rec.target_seconds,
                       rec.accumulated_seconds + leaveElapsed now rec.session_start, none⟩ ∧
               (voiceStateUpdate w g u true false false now st).2 =
                 [Effect.logKickError g u]))))) := by
  set e : Int := leaveElapsed now rec.session_start with he
  set st2 : Store := addAccumulated g u e st with hst2
  set st3 : Store := if (getDailyGoal g u st2).isSome then
      addAchievedHours g u ((e : ℚ) / 3600) st2 else st2 with hst3
  have h2 : getTarget g u st2 = some ⟨rec.target_seconds, rec.accumulated_seconds + e, none⟩ := by
    rw [hst2, getTarget_addAccumulated_self, hget]
    rfl
  have hdg2 : getDailyGoal g u st2 = getDailyGoal g u st := by
    rw [hst2, getDailyGoal_addAccumulated]
  have htgt3 : getTarget g u st3 = some ⟨rec.target_seconds, rec.accumulated_seconds + e, none⟩ := by
    rw [hst3]
    by_cases hdg : (getDailyGoal g u st2).isSome
    · rw [if_pos hdg, getTarget_addAchievedHours]
      exact h2
    · rw [if_neg hdg]
      exact h2
  have hdaily3 : getDailyGoal g u st3 =
      (getDailyGoal g u st).map
        (fun dg => { dg with achieved_hours := dg.achieved_hours + (e : ℚ) / 3600 }) := by
    rw [hst3]
    rcases hdgs : getDailyGoal g u st with _ | dg
    · rw [if_neg (by rw [hdg2, hdgs]; simp)]
      rw [hdg2, hdgs]
      rfl
    · rw [if_pos (by rw [hdg2, hdgs]; simp), getDailyGoal_addAchievedHours_self, hdg2, hdgs]
  have hmain : voiceStateUpdate w g u true false false now st =
      leaveOutcome w g u ⟨rec.target_seconds, rec.accumulated_seconds + e, none⟩ st3 := by
    simp only [voiceStateUpdate, hget]
    simp only [Bool.not_true, Bool.false_and, Bool.and_false,
      Bool.not_false, Bool.and_true, Bool.true_and, Bool.and_self,
      Bool.false_eq_true, eq_self_iff_true, if_false, if_true,
      ite_false, ite_true]
    rw [← he, ← hst2, ← hst3, htgt3]
  have hspec := leaveOutcome_spec w g u ⟨rec.target_seconds, rec.accumulated_seconds + e, none⟩ st3
  refine ⟨?_, ?_, ?_⟩
  · rw [hmain, leaveOutcome_daily, hdaily3]
  · intro hr
    rw [hmain, hspec.1 hr]
    exact ⟨getTarget_clearTarget_self g u st3, rfl⟩
  · intro hlt
    have hs := hspec.2 hlt
    refine ⟨fun hmem => ?_, fun hmem => ⟨fun hperm => ?_, fun hperm =>
      ⟨fun hpos => ?_, fun hpos => ⟨fun hk => ?_, fun hk => ?_⟩⟩⟩⟩
    · rw [hmain, hs.1 hmem]
      exact ⟨htgt3, rfl⟩
    · rw [hmain, (hs.2 hmem).1 hperm]
      exact ⟨htgt3, rfl⟩
    · rw [hmain, ((hs.2 hmem).2 hperm).1 hpos]
      exact ⟨htgt3, rfl⟩
    · rw [hmain, (((hs.2 hmem).2 hperm).2 hpos).1 hk]
      exact ⟨getTarget_clearTarget_self g u st3, rfl⟩
    · rw [hmain, (((hs.2 hmem).2 hperm).2 hpos).2 hk]
      exact ⟨htgt3, rfl⟩


/-! ### Behaviour of the periodic sampler -/

theorem tickStep_getTarget_other (w : World) (now : Int) (acc : Store × List Effect)
    (s : Key × TargetRec) (g u : String) (h : (g, u) ≠ s.1) :
    getTarget g u (tickStep w now acc s).1 = getTarget g u acc.1 := by
  have h' : (g, u) ≠ (s.1.1, s.1.2) := by simpa using h
  unfold tickStep
  cases s.2.session_start with
  | none => rfl
  | some s0 =>
    dsimp only
    split_ifs <;>
      first
        | rfl
        | rw [getTarget_clearTarget_other s.1.1 s.1.2 g u _ h',
              getTarget_addAchievedHours]
        | rw [getTarget_clearTarget_other s.1.1 s.1.2 g u _ h']
        | rw [getTarget_addAchievedHours]

theorem tickStep_getDailyGoal_other (w : World) (now : Int) (acc : Store × List Effect)
    (s : Key × TargetRec) (g u : String) (h : (g, u) ≠ s.1) :
    getDailyGoal g u (tickStep w now acc s).1 = getDailyGoal g u acc.1 := by
  have h' : (g, u) ≠ (s.1.1, s.1.2) := by simpa using h
  unfold tickStep
  cases s.2.session_start with
  | none => rfl
  | some s0 =>
    dsimp only
    split_ifs <;>
      first
        | rfl
        | rw [getDailyGoal_clearTarget,
              getDailyGoal_addAchievedHours_other s.1.1 s.1.2 g u _ _ h']
        | rw [getDailyGoal_clearTarget]
        | rw [getDailyGoal_addAchievedHours_other s.1.1 s.1.2 g u _ _ h']

theorem tickStep_effects (w : World) (now : Int) (acc : Store × List Effect)
    (s : Key × TargetRec) :
    (tickStep w now acc s).2 = acc.2 ∨
    (tickStep w now acc s).2 =
      acc.2 ++ [Effect.dmReachedSampler s.1.1 s.1.2 s.2.target_seconds] := by
  unfold tickStep
  cases s.2.session_start with
  | none => exact Or.inl rfl
  | some s0 =>
    dsimp only
    split_ifs <;> first | exact Or.inl rfl | exact Or.inr rfl

theorem foldl_tickStep_getTarget (w : World) (now : Int) (rows : List (Key × TargetRec))
    (acc : Store × List Effect) (g u : String) (h : (g, u) ∉ rows.map Prod.fst) :
    getTarget g u (rows.foldl (tickStep w now) acc).1 = getTarget g u acc.1 := by
  induction rows generalizing acc with
  | nil => rfl
  | cons r rows ih =>
    simp only [List.map_cons, List.mem_cons, not_or] at h
    rw [List.foldl_cons, ih _ h.2]
    exact tickStep_getTarget_other w now acc r g u h.1

theorem foldl_tickStep_getDailyGoal (w : World) (now : Int)
    (rows : List (Key × TargetRec)) (acc : Store × List Effect) (g u : String)
    (h : (g, u) ∉ rows.map Prod.fst) :
    getDailyGoal g u (rows.foldl (tickStep w now) acc).1 = getDailyGoal g u acc.1 := by
  induction rows generalizing acc with
  | nil => rfl
  | cons r rows ih =>
    simp only [List.map_cons, List.mem_cons, not_or] at h
    rw [List.foldl_cons, ih _ h.2]
    exact tickStep_getDailyGoal_other w now acc r g u h.1

theorem foldl_tickStep_effects_mono (w : World) (now : Int)
    (rows : List (Key × TargetRec)) (acc : Store × List Effect) (x : Effect)
    (hx : x ∈ acc.2) : x ∈ (rows.foldl (tickStep w now) acc).2 := by
  induction rows generalizing acc with
  | nil => exact hx
  | cons r rows ih =>
    rw [List.foldl_cons]
    refine ih _ ?_
    rcases tickStep_effects w now acc r with h | h <;> rw [h]
    · exact hx
    · exact List.mem_append_left _ hx

theorem foldl_tickStep_effects_keys (w : World) (now : Int)
    (rows : List (Key × TargetRec)) (acc : Store × List Effect) (x : Effect)
    (hx : x ∈ (rows.foldl (tickStep w now) acc).2) :
    x ∈ acc.2 ∨ Effect.key x ∈ rows.map Prod.fst := by
  induction rows generalizing acc with
  | nil => exact Or.inl hx
  | cons r rows ih =>
    rw [List.foldl_cons] at hx
    rcases ih _ hx with h | h
    · rcases tickStep_effects w now acc r with h2 | h2 <;> rw [h2] at h
      · exact Or.inl h
      · rcases List.mem_append.mp h with h3 | h3
        · exact Or.inl h3
        · refine Or.inr ?_
          rcases List.mem_singleton.mp h3 with rfl
          simp [Effect.key]
    · exact Or.inr (by simp [List.map_cons]; right; simpa using h)

/-- The `getTarget … = some rec` locates the actual row in the table. -/
theorem getTarget_mem (g u : String) (st : Store) (rec : TargetRec)
    (h : getTarget g u st = some rec) : ((g, u), rec) ∈ st.targets := by
  unfold getTarget at h
  rcases Option.map_eq_some'.mp h with ⟨e, he, hrec⟩
  have h1 := List.find?_some he
  have h2 := List.mem_of_find?_eq_some he
  simp only [decide_eq_true_eq] at h1
  have he2 : ((g, u), rec) = e := by
    rw [← h1, ← hrec]
  rw [he2]
  exact h2

/-- The `getTarget … = none` means no row has that key. -/
theorem getTarget_none_key (g u : String) (st : Store)
    (h : getTarget g u st = none) : (g, u) ∉ st.targets.map Prod.fst := by
  unfold getTarget at h
  intro hmem
  rcases List.mem_map.mp hmem with ⟨e, he, hk⟩
  have := List.find?_eq_none.mp (Option.map_eq_none'.mp h) e he
  simp [hk] at this

theorem getAllActiveSessions_keys_nodup (st : Store) (hwf : st.twf) :
    ((getAllActiveSessions st).map Prod.fst).Nodup := by
  unfold getAllActiveSessions
  exact List.Nodup.sublist (List.Sublist.map _ (List.filter_sublist _)) hwf


/-- Full description of one sampler tick as seen from one row `(g, u)` of
the `targets` table, assuming unique keys. -/
theorem periodicTick_spec (w : World) (now : Int) (st : Store) (g u : String)
    (rec : TargetRec) (hwf : st.twf) (hget : getTarget g u st = some rec) :
    (rec.session_start = none →
       getTarget g u (periodicTick w now st).1 = some rec ∧
       getDailyGoal g u (periodicTick w now st).1 = getDailyGoal g u st) ∧
    (∀ s0 : Int, rec.session_start = some s0 →
       getDailyGoal g u (periodicTick w now st).1 =
         (getDailyGoal g u st).map
           (fun dg => { dg with achieved_hours :=
               dg.achieved_hours + ((Int.fdiv (now - s0) 1000 : Int) : ℚ) / 3600 }) ∧
       (rec.accumulated_seconds + Int.fdiv (now - s0) 1000 < rec.target_seconds →
          getTarget g u (periodicTick w now st).1 = some rec) ∧
       (rec.target_seconds ≤ rec.accumulated_seconds + Int.fdiv (now - s0) 1000 →
          (w.guildOk g = false → getTarget g u (periodicTick w now st).1 = some rec) ∧
          (w.guildOk g = true →
             getTarget g u (periodicTick w now st).1 = none ∧
             (w.memberOk g u = true →
                Effect.dmReachedSampler g u rec.target_seconds ∈
                  (periodicTick w now st).2)))) := by
  constructor
  · intro hss
    have hkeys : (g, u) ∉ (getAllActiveSessions st).map Prod.fst := by
      intro hmem
      rcases List.mem_map.mp hmem with ⟨e, he, hk⟩
      have hmem2 : e ∈ st.targets := (List.mem_filter.mp he).1
      have hios := (List.mem_filter.mp he).2
      have hmem3 := getTarget_mem g u st rec hget
      have heq : e = ((g, u), rec) :=
        List.inj_on_of_nodup_map hwf hmem2 hmem3 (by rw [hk])
      rw [heq] at hios
      simp [hss] at hios
    constructor
    · rw [show (periodicTick w now st).1 =
          ((getAllActiveSessions st).foldl (tickStep w now) (st, [])).1 from rfl,
        foldl_tickStep_getTarget w now _ _ g u hkeys]
      exact hget
    · rw [show (periodicTick w now st).1 =
          ((getAllActiveSessions st).foldl (tickStep w now) (st, [])).1 from rfl,
        foldl_tickStep_getDailyGoal w now _ _ g u hkeys]
  · intro s0 hss
    have hmem : ((g, u), rec) ∈ getAllActiveSessions st := by
      refine List.mem_filter.mpr ⟨getTarget_mem g u st rec hget, ?_⟩
      simp [hss]
    rcases List.append_of_mem hmem with ⟨l1, l2, hsplit⟩
    have hnd := getAllActiveSessions_keys_nodup st hwf
    rw [hsplit] at hnd
    simp only [List.map_append, List.map_cons] at hnd
    have hnotl1 : (g, u) ∉ l1.map Prod.fst := by
      have hdisj := List.disjoint_of_nodup_append hnd
      intro hc
      exact hdisj hc (by simp)
    have hnotl2 : (g, u) ∉ l2.map Prod.fst := by
      have h1 := List.Nodup.of_append_right hnd
      have h2 := (List.nodup_cons.mp h1).1
      simpa using h2
    set acc1 : Store × List Effect :=
      l1.foldl (tickStep w now) (st, []) with hacc1
    have hfold : periodicTick w now st =
        l2.foldl (tickStep w now) (tickStep w now acc1 ((g, u), rec)) := by
      show (getAllActiveSessions st).foldl (tickStep w now) (st, []) = _
      rw [hsplit, List.foldl_append, List.foldl_cons, hacc1]
    have hT1 : getTarget g u acc1.1 = some rec := by
      rw [hacc1, foldl_tickStep_getTarget w now _ _ g u hnotl1]
      exact hget
    have hD1 : getDailyGoal g u acc1.1 = getDailyGoal g u st := by
      rw [hacc1, foldl_tickStep_getDailyGoal w now _ _ g u hnotl1]
    have hstepD : getDailyGoal g u (tickStep w now acc1 ((g, u), rec)).1 =
        (getDailyGoal g u st).map
          (fun dg => { dg with achieved_hours :=
              dg.achieved_hours + ((Int.fdiv (now - s0) 1000 : Int) : ℚ) / 3600 }) := by
      unfold tickStep
      dsimp only
      rw [hss]
      dsimp only
      by_cases hC : (getDailyGoal g u acc1.1).isSome
      · simp only [hC, eq_self_iff_true, if_true, ite_true]
        split_ifs <;> dsimp only <;>
          first
            | rw [getDailyGoal_clearTarget, getDailyGoal_addAchievedHours_self, hD1]
            | rw [getDailyGoal_addAchievedHours_self, hD1]
      · simp only [if_neg hC]
        have hnone : getDailyGoal g u acc1.1 = none :=
          Option.not_isSome_iff_eq_none.mp hC
        have hnone2 : getDailyGoal g u st = none := by rw [← hD1]; exact hnone
        split_ifs <;> dsimp only <;>
          first
            | (rw [getDailyGoal_clearTarget, hnone, hnone2]; rfl)
            | (rw [hnone, hnone2]; rfl)
    have hgT : ∀ s' : Store × List Effect, getTarget g u s'.1 = some rec →
        getTarget g u (if (getDailyGoal g u s'.1).isSome = true then
          addAchievedHours g u (((Int.fdiv (now - s0) 1000 : Int) : ℚ) / 3600) s'.1
        else s'.1) = some rec := by
      intro s' hs'
      split_ifs
      · rw [getTarget_addAchievedHours]
        exact hs'
      · exact hs'
    have hstepT : getTarget g u (tickStep w now acc1 ((g, u), rec)).1 =
        (if rec.target_seconds ≤ rec.accumulated_seconds + Int.fdiv (now - s0) 1000
            ∧ w.guildOk g = true then none else some rec) := by
      unfold tickStep
      dsimp only
      rw [hss]
      dsimp only
      by_cases hA : rec.accumulated_seconds + Int.fdiv (now - s0) 1000 ≥
          rec.target_seconds
      · rw [if_pos hA]
        by_cases hB : w.guildOk g = true
        · rw [if_pos hB]
          dsimp only
          rw [getTarget_clearTarget_self, if_pos ⟨hA, hB⟩]
        · have hBf : w.guildOk g = false := by simpa using hB
          simp only [hBf, Bool.false_eq_true, if_false, ite_false, and_false]
          exact hgT acc1 hT1
      · rw [if_neg hA]
        dsimp only
        rw [hgT acc1 hT1]
        rw [if_neg (fun hc => hA hc.1)]
    have hstepE : w.guildOk g = true → w.memberOk g u = true →
        rec.target_seconds ≤ rec.accumulated_seconds + Int.fdiv (now - s0) 1000 →
        Effect.dmReachedSampler g u rec.target_seconds ∈
          (tickStep w now acc1 ((g, u), rec)).2 := by
      intro hgk hmo hge
      unfold tickStep
      dsimp only
      rw [hss]
      dsimp only
      rw [if_pos (show rec.accumulated_seconds + Int.fdiv (now - s0) 1000 ≥
        rec.target_seconds from hge)]
      simp only [hgk, hmo, eq_self_iff_true, if_true, ite_true]
      exact List.mem_append_right _ (List.mem_singleton.mpr rfl)
    refine ⟨?_, ?_, ?_⟩
    · rw [hfold, foldl_tickStep_getDailyGoal w now _ _ g u hnotl2, hstepD]
    · intro hlt
      rw [hfold, foldl_tickStep_getTarget w now _ _ g u hnotl2, hstepT,
        if_neg (fun hc => absurd hc.1 (not_le.mpr hlt))]
    · intro hge
      constructor
      · intro hgk
        rw [hfold, foldl_tickStep_getTarget w now _ _ g u hnotl2, hstepT,
          if_neg (fun hc => by rw [hgk] at hc; exact Bool.false_ne_true hc.2)]
      · intro hgk
        constructor
        · rw [hfold, foldl_tickStep_getTarget w now _ _ g u hnotl2, hstepT,
            if_pos ⟨hge, hgk⟩]
        · intro hmo
          rw [hfold]
          exact foldl_tickStep_effects_mono w now l2 _ _ (hstepE hgk hmo hge)


/-! ### Behaviour of the daily reset -/

theorem rolloverStep_mem (w : World) (effs : List Effect) (e : Key × DailyGoalRec)
    (x : Effect) :
    x ∈ rolloverStep w effs e ↔ x ∈ effs ∨
      (e.2.achieved_hours < e.2.goal_hours ∧ w.guildOk e.1.1 = true ∧
       w.memberOk e.1.1 e.1.2 = true ∧
       (x = Effect.kickDaily e.1.1 e.1.2 e.2.achieved_hours e.2.goal_hours ∨
        x = Effect.dmDailyKicked e.1.1 e.1.2 e.2.achieved_hours e.2.goal_hours)) := by
  unfold rolloverStep
  split_ifs with h1 h2 h3
  · simp [h1, h2, h3, List.mem_append, or_assoc]
  · simp [h1, h2, h3]
  · simp [h1, h2]
  · simp [h1]

theorem foldl_rolloverStep_mem (w : World) (l : List (Key × DailyGoalRec))
    (init : List Effect) (x : Effect) :
    x ∈ l.foldl (rolloverStep w) init ↔ x ∈ init ∨
      ∃ e ∈ l, (e.2.achieved_hours < e.2.goal_hours ∧ w.guildOk e.1.1 = true ∧
        w.memberOk e.1.1 e.1.2 = true ∧
        (x = Effect.kickDaily e.1.1 e.1.2 e.2.achieved_hours e.2.goal_hours ∨
         x = Effect.dmDailyKicked e.1.1 e.1.2 e.2.achieved_hours e.2.goal_hours)) := by
  induction l generalizing init with
  | nil => simp
  | cons e l ih =>
    rw [List.foldl_cons, ih, rolloverStep_mem]
    constructor
    · rintro ((hx | hcond) | ⟨e2, he2, hc⟩)
      · exact Or.inl hx
      · exact Or.inr ⟨e, List.mem_cons_self e l, hcond⟩
      · exact Or.inr ⟨e2, List.mem_cons_of_mem _ he2, hc⟩
    · rintro (hx | ⟨e2, he2, hc⟩)
      · exact Or.inl (Or.inl hx)
      · rcases List.mem_cons.mp he2 with rfl | hmem2
        · exact Or.inl (Or.inr hc)
        · exact Or.inr ⟨e2, hmem2, hc⟩

/-! ### The sampler on a key with no Target row -/

theorem periodicTick_no_target (w : World) (now : Int) (st : Store) (g u : String)
    (h : getTarget g u st = none) :
    getTarget g u (periodicTick w now st).1 = none ∧
    getDailyGoal g u (periodicTick w now st).1 = getDailyGoal g u st ∧
    ∀ x ∈ (periodicTick w now st).2, Effect.key x ≠ (g, u) := by
  have hkeys : (g, u) ∉ st.targets.map Prod.fst := getTarget_none_key g u st h
  have hkeys2 : (g, u) ∉ (getAllActiveSessions st).map Prod.fst := by
    intro hc
    rcases List.mem_map.mp hc with ⟨e, he, hk⟩
    exact hkeys (List.mem_map.mpr ⟨e, List.mem_of_mem_filter he, hk⟩)
  refine ⟨?_, ?_, ?_⟩
  · rw [show (periodicTick w now st).1 =
        ((getAllActiveSessions st).foldl (tickStep w now) (st, [])).1 from rfl,
      foldl_tickStep_getTarget w now _ _ g u hkeys2]
    exact h
  · rw [show (periodicTick w now st).1 =
        ((getAllActiveSessions st).foldl (tickStep w now) (st, [])).1 from rfl,
      foldl_tickStep_getDailyGoal w now _ _ g u hkeys2]
  · intro x hx
    rcases foldl_tickStep_effects_keys w now _ _ x hx with h1 | h1
    · simp at h1
    · intro hk
      rw [hk] at h1
      exact hkeys2 h1

/-! ### Iterated sampler ticks on a single open session -/

/-- The `n` consecutive ticks of the 10-second interval, the first at time `t1`
(`CHECK_INTERVAL_MS = 10_000`). -/
def runTicks (w : World) (t1 : Int) : Nat → Store → Store
  | 0, st => st
  | n + 1, st => runTicks w (t1 + 10000) n (periodicTick w t1 st).1

theorem periodicTick_singleton (w : World) (g u : String) (T A s : Int) (G H : ℚ)
    (dss : Option Int) (td : List TodoRec) (m : Nat) (now : Int)
    (hlt : A + Int.fdiv (now - s) 1000 < T) :
    periodicTick w now ⟨[((g, u), ⟨T, A, some s⟩)], [((g, u), ⟨G, H, dss⟩)], td, m⟩ =
      (⟨[((g, u), ⟨T, A, some s⟩)],
        [((g, u), ⟨G, H + ((Int.fdiv (now - s) 1000 : Int) : ℚ) / 3600, dss⟩)], td, m⟩,
       []) := by
  have hnot : ¬ (A + Int.fdiv (now - s) 1000 ≥ T) := not_le.mpr hlt
  simp [periodicTick, getAllActiveSessions, tickStep, getDailyGoal,
    addAchievedHours, List.filter, List.foldl, List.find?, hnot]

theorem runTicks_singleton (w : World) (g u : String) (T A s : Int) (G H : ℚ)
    (dss : Option Int) (td : List TodoRec) (m : Nat) (n : Nat) (t1 : Int)
    (hlt : ∀ i : Nat, i < n → A + Int.fdiv (t1 + 10000 * i - s) 1000 < T) :
    runTicks w t1 n ⟨[((g, u), ⟨T, A, some s⟩)], [((g, u), ⟨G, H, dss⟩)], td, m⟩ =
      ⟨[((g, u), ⟨T, A, some s⟩)],
       [((g, u), ⟨G, H +
          ((∑ i in Finset.range n, Int.fdiv (t1 + 10000 * i - s) 1000 : Int) : ℚ) / 3600,
          dss⟩)], td, m⟩ := by
  induction n generalizing t1 H with
  | zero =>
    simp [runTicks]
  | succ n ih =>
    rw [runTicks]
    have h0 : A + Int.fdiv (t1 - s) 1000 < T := by
      have := hlt 0 (Nat.succ_pos n)
      simpa using this
    rw [periodicTick_singleton w g u T A s G H dss td m t1 h0]
    dsimp only
    rw [ih _ (t1 + 10000) (fun i hi => by
      have := hlt (i + 1) (Nat.succ_lt_succ hi)
      have harg : t1 + 10000 * ((i : ℤ) + 1) - s = t1 + 10000 + 10000 * (i : ℤ) - s := by
        ring
      rw [show ((i + 1 : Nat) : ℤ) = (i : ℤ) + 1 by push_cast; ring, harg] at this
      exact this)]
    have hsum : (∑ i in Finset.range (n + 1), Int.fdiv (t1 + 10000 * i - s) 1000) =
        (∑ i in Finset.range n, Int.fdiv (t1 + 10000 + 10000 * i - s) 1000) +
          Int.fdiv (t1 - s) 1000 := by
      rw [Finset.sum_range_succ']
      congr 1
      · refine Finset.sum_congr rfl (fun i _ => ?_)
        congr 1
        push_cast
        ring
      · congr 1
        push_cast
        ring
    have hQ : (H + ((Int.fdiv (t1 - s) 1000 : Int) : ℚ) / 3600) +
        ((∑ i in Finset.range n,
            Int.fdiv (t1 + 10000 + 10000 * i - s) 1000 : Int) : ℚ) / 3600 =
        H + ((∑ i in Finset.range (n + 1),
            Int.fdiv (t1 + 10000 * i - s) 1000 : Int) : ℚ) / 3600 := by
      rw [hsum]
      push_cast
      ring
    rw [hQ]


/-- Arithmetic core of the sampler over-count: summing the full elapsed
time at every tick exceeds the real elapsed time (in ms, scaled by 1000)
once there are at least three ticks, or two ticks with the first at least
one second into the session. -/
theorem sampler_overcount (n : Nat) (d : Int) (hd : 0 ≤ d) (hn : 2 ≤ n)
    (hcase : 1000 ≤ d ∨ 3 ≤ n) :
    d + 10000 * ((n : Int) - 1) <
      1000 * ∑ i in Finset.range n, Int.fdiv (d + 10000 * i) 1000 := by
  have hterm : ∀ i : Nat, Int.fdiv (d + 10000 * (i : ℤ)) 1000 =
      d / 1000 + 10 * i := by
    intro i
    rw [Int.fdiv_eq_ediv _ (by norm_num)]
    rw [show d + 10000 * (i : ℤ) = d + (10 * i) * 1000 by ring,
      Int.add_mul_ediv_right _ _ (by norm_num : (1000 : ℤ) ≠ 0)]
  rw [Finset.sum_congr rfl (fun i _ => hterm i), Finset.sum_add_distrib,
    Finset.sum_const, Finset.card_range, ← Finset.mul_sum, nsmul_eq_mul]
  have hS : (∑ i in Finset.range n, (i : ℤ)) * 2 = (n : ℤ) * ((n : ℤ) - 1) := by
    have h1 := Finset.sum_range_id_mul_two n
    have h2 := congrArg (Nat.cast : ℕ → ℤ) h1
    push_cast [Nat.cast_sub (by omega : 1 ≤ n)] at h2
    exact h2
  have hq := Int.ediv_add_emod d 1000
  have hr0 : 0 ≤ d % 1000 := Int.emod_nonneg d (by norm_num)
  have hr1 : d % 1000 < 1000 := Int.emod_lt_of_pos d (by norm_num)
  have hq0 : 0 ≤ d / 1000 := Int.ediv_nonneg hd (by norm_num)
  have hN : (2 : ℤ) ≤ (n : ℤ) := by exact_mod_cast hn
  rcases hcase with hd1000 | hn3
  · have hq1 : 1 ≤ d / 1000 :=
      (Int.le_ediv_iff_mul_le (by norm_num : (0 : ℤ) < 1000)).mpr (by linarith)
    have ha : 0 ≤ (d / 1000 - 1) * ((n : ℤ) - 1) :=
      mul_nonneg (by linarith) (by linarith)
    have hb : 0 ≤ ((n : ℤ) - 1) * ((n : ℤ) - 2) :=
      mul_nonneg (by linarith) (by linarith)
    nlinarith [hS, hq, ha, hb]
  · have hN3 : (3 : ℤ) ≤ (n : ℤ) := by exact_mod_cast hn3
    have ha : 0 ≤ (d / 1000) * ((n : ℤ) - 1) := mul_nonneg hq0 (by linarith)
    have hb : (2 : ℤ) * 1 ≤ ((n : ℤ) - 1) * ((n : ℤ) - 2) :=
      mul_le_mul (by linarith) (by linarith) (by norm_num) (by linarith)
    nlinarith [hS, hq, ha, hb]


/-! ### Shape of the handler result (for frame reasoning) -/

theorem voice_still (w : World) (g u : String) (c : Bool) (now : Int) (st : Store) :
    voiceStateUpdate w g u c c false now st = (st, []) := by
  cases hrow : getTarget g u st with
  | none => exact voice_no_target w g u c c false now st hrow
  | some row => cases c <;> simp [voiceStateUpdate, hrow]

theorem leaveOutcome_fst (w : World) (g u : String) (upd : TargetRec) (s : Store) :
    (leaveOutcome w g u upd s).1 = s ∨
    (leaveOutcome w g u upd s).1 = clearTarget g u s := by
  unfold leaveOutcome
  split_ifs <;> simp

/-- The leave branch, seen only through its resulting database: it is the
post-accumulation state `st3`, or `clearTarget` of it. -/
theorem voice_leave_fst (w : World) (g0 u0 : String) (now : Int) (st : Store)
    (row : TargetRec) (st3 : Store) (hrow : getTarget g0 u0 st = some row)
    (hst3 : st3 =
      (if (getDailyGoal g0 u0 (addAccumulated g0 u0
            (leaveElapsed now row.session_start) st)).isSome = true
       then addAchievedHours g0 u0 ((leaveElapsed now row.session_start : ℚ) / 3600)
              (addAccumulated g0 u0 (leaveElapsed now row.session_start) st)
       else addAccumulated g0 u0 (leaveElapsed now row.session_start) st)) :
    (voiceStateUpdate w g0 u0 true false false now st).1 = st3 ∨
    (voiceStateUpdate w g0 u0 true false false now st).1 = clearTarget g0 u0 st3 := by
  cases hm : getTarget g0 u0 st3 with
  | none =>
    refine Or.inl ?_
    simp only [voiceStateUpdate, hrow, Bool.not_true, Bool.false_and, Bool.and_false,
      Bool.not_false, Bool.and_true, Bool.true_and, Bool.and_self, Bool.false_eq_true,
      eq_self_iff_true, if_false, if_true, ite_false, ite_true]
    rw [← hst3, hm]
  | some upd =>
    rcases leaveOutcome_fst w g0 u0 upd st3 with h | h
    · refine Or.inl ?_
      simp only [voiceStateUpdate, hrow, Bool.not_true, Bool.false_and, Bool.and_false,
        Bool.not_false, Bool.and_true, Bool.true_and, Bool.and_self, Bool.false_eq_true,
        eq_self_iff_true, if_false, if_true, ite_false, ite_true]
      rw [← hst3, hm]
      exact h
    · refine Or.inr ?_
      simp only [voiceStateUpdate, hrow, Bool.not_true, Bool.false_and, Bool.and_false,
        Bool.not_false, Bool.and_true, Bool.true_and, Bool.and_self, Bool.false_eq_true,
        eq_self_iff_true, if_false, if_true, ite_false, ite_true]
      rw [← hst3, hm]
      exact h

/-- Every run of the handler leaves the database in one of four shapes:
untouched, a `setSessionStart`, the post-accumulation state `st3`, or
`clearTarget` of `st3`. -/
theorem voice_shape (w : World) (g0 u0 : String) (oc nc b : Bool) (now : Int)
    (st : Store) :
    ∃ (e : Int) (st3 : Store),
      ((voiceStateUpdate w g0 u0 oc nc b now st).1 = st ∨
       (voiceStateUpdate w g0 u0 oc nc b now st).1 = setSessionStart g0 u0 now st ∨
       (voiceStateUpdate w g0 u0 oc nc b now st).1 = st3 ∨
       (voiceStateUpdate w g0 u0 oc nc b now st).1 = clearTarget g0 u0 st3) ∧
      (st3 = addAccumulated g0 u0 e st ∨
       st3 = addAchievedHours g0 u0 ((e : ℚ) / 3600) (addAccumulated g0 u0 e st)) := by
  cases b with
  | true =>
    exact ⟨0, addAccumulated g0 u0 0 st, Or.inl (by rw [voice_bot]), Or.inl rfl⟩
  | false =>
    cases hrow : getTarget g0 u0 st with
    | none =>
      exact ⟨0, addAccumulated g0 u0 0 st,
        Or.inl (by rw [voice_no_target w g0 u0 oc nc false now st hrow]), Or.inl rfl⟩
    | some row =>
      cases oc with
      | false =>
        cases nc with
        | false =>
          exact ⟨0, addAccumulated g0 u0 0 st, Or.inl (by rw [voice_still]), Or.inl rfl⟩
        | true =>
          exact ⟨0, addAccumulated g0 u0 0 st,
            Or.inr (Or.inl (by rw [voice_join w g0 u0 now st row hrow])), Or.inl rfl⟩
      | true =>
        cases nc with
        | true =>
          exact ⟨0, addAccumulated g0 u0 0 st, Or.inl (by rw [voice_still]), Or.inl rfl⟩
        | false =>
          have hsplit := voice_leave_fst w g0 u0 now st row _ hrow rfl
          by_cases hdg : (getDailyGoal g0 u0 (addAccumulated g0 u0
              (leaveElapsed now row.session_start) st)).isSome = true
          · refine ⟨leaveElapsed now row.session_start,
              (if (getDailyGoal g0 u0 (addAccumulated g0 u0
                    (leaveElapsed now row.session_start) st)).isSome = true
               then addAchievedHours g0 u0 ((leaveElapsed now row.session_start : ℚ) / 3600)
                      (addAccumulated g0 u0 (leaveElapsed now row.session_start) st)
               else addAccumulated g0 u0 (leaveElapsed now row.session_start) st),
              ?_, Or.inr ?_⟩
            · rcases hsplit with h | h
              · exact Or.inr (Or.inr (Or.inl h))
              · exact Or.inr (Or.inr (Or.inr h))
            · rw [if_pos hdg]
          · refine ⟨leaveElapsed now row.session_start,
              (if (getDailyGoal g0 u0 (addAccumulated g0 u0
                    (leaveElapsed now row.session_start) st)).isSome = true
               then addAchievedHours g0 u0 ((leaveElapsed now row.session_start : ℚ) / 3600)
                      (addAccumulated g0 u0 (leaveElapsed now row.session_start) st)
               else addAccumulated g0 u0 (leaveElapsed now row.session_start) st),
              ?_, Or.inl ?_⟩
            · rcases hsplit with h | h
              · exact Or.inr (Or.inr (Or.inl h))
              · exact Or.inr (Or.inr (Or.inr h))
            · rw [if_neg hdg]

theorem voice_getTarget_other (w : World) (g0 u0 : String) (oc nc b : Bool)
    (now : Int) (st : Store) (g u : String) (h : (g, u) ≠ (g0, u0)) :
    getTarget g u (voiceStateUpdate w g0 u0 oc nc b now st).1 = getTarget g u st := by
  rcases voice_shape w g0 u0 oc nc b now st with ⟨e, st3, hres, hst3⟩
  have hT3 : getTarget g u st3 = getTarget g u st := by
    rcases hst3 with rfl | rfl
    · exact getTarget_addAccumulated_other g0 u0 g u e st h
    · rw [getTarget_addAchievedHours, getTarget_addAccumulated_other g0 u0 g u e st h]
  rcases hres with h1 | h1 | h1 | h1 <;> rw [h1]
  · exact getTarget_setSessionStart_other g0 u0 g u now st h
  · exact hT3
  · rw [getTarget_clearTarget_other g0 u0 g u st3 h]
    exact hT3

theorem getTarget_clearTarget_cases (g0 u0 g u : String) (st : Store) :
    getTarget g u (clearTarget g0 u0 st) = getTarget g u st ∨
    getTarget g u (clearTarget g0 u0 st) = none := by
  by_cases hk : (g, u) = (g0, u0)
  · have h1 : g = g0 := congrArg Prod.fst hk
    have h2 : u = u0 := congrArg Prod.snd hk
    subst h1
    subst h2
    exact Or.inr (getTarget_clearTarget_self g u st)
  · exact Or.inl (getTarget_clearTarget_other g0 u0 g u st hk)

/-- A sampler step either leaves the lookup of a given Target row unchanged or
deletes the row; it never rewrites its fields. -/
theorem tickStep_getTarget_cases (w : World) (now : Int) (acc : Store × List Effect)
    (s : Key × TargetRec) (g u : String) :
    getTarget g u (tickStep w now acc s).1 = getTarget g u acc.1 ∨
    getTarget g u (tickStep w now acc s).1 = none := by
  unfold tickStep
  cases s.2.session_start with
  | none => exact Or.inl rfl
  | some s0 =>
    dsimp only
    split_ifs <;>
      first
        | exact Or.inl rfl
        | exact Or.inl (getTarget_addAchievedHours s.1.1 s.1.2 g u _ _)
        | (rcases getTarget_clearTarget_cases s.1.1 s.1.2 g u _ with h | h
           · exact Or.inl (h.trans (getTarget_addAchievedHours s.1.1 s.1.2 g u _ _))
           · exact Or.inr h)
        | (rcases getTarget_clearTarget_cases s.1.1 s.1.2 g u _ with h | h
           · exact Or.inl h
           · exact Or.inr h)

theorem foldl_tickStep_getTarget_cases (w : World) (now : Int)
    (rows : List (Key × TargetRec)) (acc : Store × List Effect) (g u : String) :
    getTarget g u (rows.foldl (tickStep w now) acc).1 = getTarget g u acc.1 ∨
    getTarget g u (rows.foldl (tickStep w now) acc).1 = none := by
  induction rows generalizing acc with
  | nil => exact Or.inl rfl
  | cons r rows ih =>
    rw [List.foldl_cons]
    rcases ih (tickStep w now acc r) with h | h
    · rcases tickStep_getTarget_cases w now acc r g u with h2 | h2
      · exact Or.inl (h.trans h2)
      · exact Or.inr (h.trans h2)
    · exact Or.inr h

/-! ### The daily-goal `session_start` column is never written -/

/-- Every `daily_goals` row has `session_start = NULL`. -/
def dgNull (st : Store) : Prop := ∀ e ∈ st.daily_goals, e.2.session_start = none

theorem dgNull_addAchievedHours (g u : String) (d : ℚ) (st : Store)
    (h : dgNull st) : dgNull (addAchievedHours g u d st) := by
  intro e he
  rcases List.mem_map.mp he with ⟨e0, he0, rfl⟩
  by_cases hk : e0.1 = (g, u)
  · rw [if_pos hk]
    exact h e0 he0
  · rw [if_neg hk]
    exact h e0 he0

theorem dgNull_setDailyGoal (g u : String) (h0 : ℚ) (st : Store)
    (h : dgNull st) : dgNull (setDailyGoal g u h0 st) := by
  intro e he
  unfold setDailyGoal at he
  by_cases hany : st.daily_goals.any (fun e => e.1 = (g, u))
  · rw [if_pos hany] at he
    rcases List.mem_map.mp he with ⟨e0, he0, rfl⟩
    by_cases hk : e0.1 = (g, u)
    · rw [if_pos hk]
    · rw [if_neg hk]
      exact h e0 he0
  · rw [if_neg hany] at he
    rcases List.mem_cons.mp he with rfl | hmem
    · rfl
    · exact h e hmem

theorem dgNull_voice (w : World) (g0 u0 : String) (oc nc b : Bool) (now : Int)
    (st : Store) (h : dgNull st) :
    dgNull (voiceStateUpdate w g0 u0 oc nc b now st).1 := by
  rcases voice_shape w g0 u0 oc nc b now st with ⟨e, st3, hres, hst3⟩
  have h2 : dgNull (addAccumulated g0 u0 e st) := h
  have h3 : dgNull st3 := by
    rcases hst3 with rfl | rfl
    · exact h2
    · exact dgNull_addAchievedHours _ _ _ _ h2
  rcases hres with h1 | h1 | h1 | h1 <;> rw [h1]
  · exact h
  · exact h
  · exact h3
  · exact h3

theorem dgNull_tickStep (w : World) (now : Int) (acc : Store × List Effect)
    (s : Key × TargetRec) (h : dgNull acc.1) : dgNull (tickStep w now acc s).1 := by
  unfold tickStep
  cases s.2.session_start with
  | none => exact h
  | some s0 =>
    dsimp only
    split_ifs <;>
      first
        | exact h
        | exact dgNull_addAchievedHours _ _ _ _ h

theorem dgNull_tick (w : World) (now : Int) (st : Store) (h : dgNull st) :
    dgNull (periodicTick w now st).1 := by
  suffices h2 : ∀ (rows : List (Key × TargetRec)) (acc : Store × List Effect),
      dgNull acc.1 → dgNull (rows.foldl (tickStep w now) acc).1 by
    exact h2 _ _ h
  intro rows
  induction rows with
  | nil => exact fun acc h => h
  | cons r rows ih =>
    intro acc h
    rw [List.foldl_cons]
    exact ih _ (dgNull_tickStep w now acc r h)

theorem dgNull_applyOp (op : Op) (st : Store) (h : dgNull st) :
    dgNull (applyOp op st) := by
  cases op with
  | settarget g u m =>
    show dgNull (settargetCommand g u m st).1
    unfold settargetCommand
    split_ifs
    · exact h
    · show dgNull (setTarget g u _ st)
      unfold setTarget
      split_ifs <;> exact h
  | cleartarget g u => exact h
  | setgoal g u h0 =>
    show dgNull (setgoalCommand g u h0 st).1
    unfold setgoalCommand
    split_ifs
    · exact h
    · exact dgNull_setDailyGoal g u h0 st h
  | addtodo g u task => exact h
  | donetodo g u i => exact h
  | deltodo g u i => exact h
  | voice w g u oc nc b now => exact dgNull_voice w g u oc nc b now st h
  | tick w now => exact dgNull_tick w now st h
  | rollover w =>
    intro e he
    simp [applyOp, dailyRollover, deleteAllTodos, clearDailyGoals] at he

theorem dgNull_applyOps (ops : List Op) (st : Store) (h : dgNull st) :
    dgNull (applyOps ops st) := by
  induction ops generalizing st with
  | nil => exact h
  | cons op ops ih => exact ih _ (dgNull_applyOp op st h)


/-! ### Concrete environments and databases for closed instances -/

/-- Environment where every external action succeeds: guild cached, member
fetchable, kick permission held, bot role position 5 above member position 1,
kicks resolve, an announce channel exists. -/
def wOn : World :=
  ⟨fun _ => true, fun _ _ => true, fun _ => true, fun _ => 5, fun _ _ => 1,
   fun _ _ => true, fun _ => true⟩

/-- Environment where the member fetch fails and the bot lacks kick
permission. -/
def wOff : World :=
  ⟨fun _ => true, fun _ _ => false, fun _ => false, fun _ => 5, fun _ _ => 1,
   fun _ _ => false, fun _ => true⟩

def stC1 : Store :=
  ⟨[(("g", "u"), ⟨100000, 5, some 2000⟩)], [(("g", "u"), ⟨2, 1, none⟩)], [], 1⟩

def stC2 : Store :=
  ⟨[(("g", "u"), ⟨1000000, 0, some 0⟩)], [(("g", "u"), ⟨1000, 0, none⟩)], [], 1⟩

def stC3 : Store := ⟨[(("g", "u"), ⟨3600, 100, some 1000⟩)], [], [], 1⟩

def stC4 : Store :=
  ⟨[], [(("g", "a"), ⟨5, 3, none⟩), (("g", "b"), ⟨5, 5, none⟩)],
   [⟨"g", "a", 1, "task", false⟩], 2⟩

def stC5 : Store := ⟨[(("g", "u"), ⟨100000, 10, some 5000⟩)], [], [], 1⟩

def stC6 : Store := ⟨[(("g", "u"), ⟨600, 0, some 0⟩)], [], [], 1⟩

def stC7 : Store := ⟨[(("h", "v"), ⟨100, 0, some 7000⟩)], [], [], 1⟩

def stC9 : Store := ⟨[(("h", "v"), ⟨100, 0, some 7000⟩)], [(("g", "u"), ⟨5, 2, none⟩)], [], 1⟩

/-! ### The claims -/

/-- C1, counterexample: the claim says that when `now < sessionStart` the
elapsed value applied to `accumulatedSeconds` and `achievedHours` is 0.  At
`now = 0` against `sessionStart = 2000` the leave handler applies
`Math.floor(-2000/1000) = -2`: `accumulated_seconds` drops from 5 to 3 (not
the 5 the claim requires) and `achieved_hours` drops by `2/3600`. -/
theorem C1_counterexample :
    getTarget "g" "u" (voiceStateUpdate wOff "g" "u" true false false 0 stC1).1 =
      some ⟨100000, 3, none⟩ ∧
    (3 : ℤ) ≠ 5 := by
  refine ⟨by decide, by decide⟩

/-- C1 (amended): for an open session the elapsed time computed by both the
Presence Transition Handler and the Periodic Sampler is exactly
`Math.floor((now - sessionStart)/1000)` = `Int.fdiv (now - s0) 1000` with NO
clamping: when `now < sessionStart` the negative value is applied as-is to
`accumulated_seconds` and `achieved_hours`.  (Hypotheses keep the record
through the enforcement tail of the handler: not reached, member fetch fails;
`s0 ≠ 0` avoids the JS falsy-0 corner.) -/
theorem C1_no_clamp (w : World) (g u : String) (now : Int) (st : Store)
    (rec : TargetRec) (s0 : Int) (hwf : st.twf)
    (hget : getTarget g u st = some rec) (hss : rec.session_start = some s0)
    (hs0 : s0 ≠ 0)
    (hlt : rec.accumulated_seconds + Int.fdiv (now - s0) 1000 < rec.target_seconds)
    (hmem : w.memberOk g u = false) :
    getTarget g u (voiceStateUpdate w g u true false false now st).1 =
      some ⟨rec.target_seconds,
            rec.accumulated_seconds + Int.fdiv (now - s0) 1000, none⟩ ∧
    getDailyGoal g u (voiceStateUpdate w g u true false false now st).1 =
      (getDailyGoal g u st).map
        (fun dg => { dg with achieved_hours :=
            dg.achieved_hours + ((Int.fdiv (now - s0) 1000 : Int) : ℚ) / 3600 }) ∧
    getDailyGoal g u (periodicTick w now st).1 =
      (getDailyGoal g u st).map
        (fun dg => { dg with achieved_hours :=
            dg.achieved_hours + ((Int.fdiv (now - s0) 1000 : Int) : ℚ) / 3600 }) ∧
    getTarget g u (periodicTick w now st).1 = some rec := by
  have he : leaveElapsed now rec.session_start = Int.fdiv (now - s0) 1000 := by
    rw [hss]
    show (if s0 = 0 then 0 else Int.fdiv (now - s0) 1000) = _
    rw [if_neg hs0]
  have hv := voice_leave_spec w g u now st rec hget
  have ht := (periodicTick_spec w now st g u rec hwf hget).2 s0 hss
  refine ⟨?_, ?_, ht.1, ht.2.1 hlt⟩
  · have h1 := (hv.2.2 (by rw [he]; exact hlt)).1 hmem
    rw [he] at h1
    exact h1.1
  · have h2 := hv.1
    rw [he] at h2
    exact h2

/-- C1 witness: the amended theorem at a concrete clock-skew input
(`now = 0 < sessionStart = 2000`). -/
theorem C1_no_clamp_witness :
    getTarget "g" "u" (voiceStateUpdate wOff "g" "u" true false false 0 stC1).1 =
      some ⟨100000, 5 + Int.fdiv (0 - 2000) 1000, none⟩ :=
  (C1_no_clamp wOff "g" "u" 0 stC1 ⟨100000, 5, some 2000⟩ 2000 (by decide)
    (by decide) rfl (by decide) (by decide) (by decide)).1

/-- C5, counterexample: the claim says `accumulatedSeconds` never decreases
outside the explicit set-target replacement.  A leave transition under clock
skew (`now = 1000 < sessionStart = 5000`) applies elapsed `-4` and drops
`accumulated_seconds` from 10 to 6. -/
theorem C5_counterexample :
    getTarget "g" "u" (applyOp (Op.voice wOff "g" "u" true false false 1000) stC5) =
      some ⟨100000, 6, none⟩ ∧
    ¬ ((10 : ℤ) ≤ 6) := by
  refine ⟨by decide, by decide⟩

/-- C5 (amended): for every operation other than the set-target replacement,
provided the clock has not run backwards across the open session
(`sessionStart ≤ now` on a leave transition), `accumulated_seconds` never
decreases on any surviving Target row; and `addAccumulated` — the only
statement that folds elapsed time into `accumulated_seconds` — clears
`session_start` to NULL in that same UPDATE. -/
theorem C5_monotone (op : Op) (st : Store)
    (hop : ∀ g u m, op ≠ Op.settarget g u m)
    (hskew : ∀ w g0 u0 oc nc b now, op = Op.voice w g0 u0 oc nc b now →
       ∀ rec s0, getTarget g0 u0 st = some rec → rec.session_start = some s0 →
         s0 ≤ now) :
    (∀ g u r r', getTarget g u st = some r →
       getTarget g u (applyOp op st) = some r' →
       r.accumulated_seconds ≤ r'.accumulated_seconds) ∧
    (∀ g u d (st2 : Store) r', getTarget g u (addAccumulated g u d st2) = some r' →
       r'.session_start = none) := by
  constructor
  · intro g u r r' hr hr'
    cases op with
    | settarget g0 u0 m => exact (hop g0 u0 m rfl).elim
    | cleartarget g0 u0 =>
      replace hr' : getTarget g u (clearTarget g0 u0 st) = some r' := hr'
      rcases getTarget_clearTarget_cases g0 u0 g u st with h | h
      · rw [h, hr] at hr'
        cases hr'
        exact le_refl _
      · rw [h] at hr'
        cases hr'
    | setgoal g0 u0 h0 =>
      have heq : getTarget g u (applyOp (Op.setgoal g0 u0 h0) st) = getTarget g u st := by
        show getTarget g u (setgoalCommand g0 u0 h0 st).1 = _
        unfold setgoalCommand
        split_ifs
        · rfl
        · show getTarget g u (setDailyGoal g0 u0 h0 st) = _
          unfold setDailyGoal
          split_ifs <;> rfl
      rw [heq, hr] at hr'
      cases hr'
      exact le_refl _
    | addtodo g0 u0 task =>
      replace hr' : getTarget g u st = some r' := hr'
      rw [hr] at hr'
      cases hr'
      exact le_refl _
    | donetodo g0 u0 i =>
      replace hr' : getTarget g u st = some r' := hr'
      rw [hr] at hr'
      cases hr'
      exact le_refl _
    | deltodo g0 u0 i =>
      replace hr' : getTarget g u st = some r' := hr'
      rw [hr] at hr'
      cases hr'
      exact le_refl _
    | tick w0 now =>
      replace hr' : getTarget g u
          ((getAllActiveSessions st).foldl (tickStep w0 now) (st, [])).1 = some r' := hr'
      rcases foldl_tickStep_getTarget_cases w0 now (getAllActiveSessions st)
          (st, []) g u with h | h
      · rw [h, hr] at hr'
        cases hr'
        exact le_refl _
      · rw [h] at hr'
        cases hr'
    | rollover w0 =>
      replace hr' : getTarget g u st = some r' := hr'
      rw [hr] at hr'
      cases hr'
      exact le_refl _
    | voice w0 g0 u0 oc nc b now =>
      by_cases hk : (g, u) = (g0, u0)
      · have h1 : g = g0 := congrArg Prod.fst hk
        have h2 : u = u0 := congrArg Prod.snd hk
        subst h1
        subst h2
        cases b with
        | true =>
          replace hr' : getTarget g u (voiceStateUpdate w0 g u oc nc true now st).1 =
            some r' := hr'
          rw [voice_bot] at hr'
          rw [hr] at hr'
          cases hr'
          exact le_refl _
        | false =>
          have he0 : 0 ≤ leaveElapsed now r.session_start := by
            cases hssc : r.session_start with
            | none => exact le_refl 0
            | some s0 =>
              show 0 ≤ (if s0 = 0 then 0 else Int.fdiv (now - s0) 1000)
              by_cases h0 : s0 = 0
              · simp [h0]
              · rw [if_neg h0]
                have := hskew w0 g u oc nc false now rfl r s0 hr hssc
                exact Int.fdiv_nonneg (by linarith) (by norm_num)
          replace hr' : getTarget g u (voiceStateUpdate w0 g u oc nc false now st).1 =
            some r' := hr'
          cases oc with
          | false =>
            cases nc with
            | false =>
              rw [voice_still] at hr'
              rw [hr] at hr'
              cases hr'
              exact le_refl _
            | true =>
              rw [voice_join w0 g u now st r hr] at hr'
              rw [getTarget_setSessionStart_self, hr] at hr'
              cases hr'
              exact le_refl _
          | true =>
            cases nc with
            | true =>
              rw [voice_still] at hr'
              rw [hr] at hr'
              cases hr'
              exact le_refl _
            | false =>
              have hv := voice_leave_spec w0 g u now st r hr
              rcases le_or_lt r.target_seconds
                  (r.accumulated_seconds + leaveElapsed now r.session_start) with hge | hlt
              · rw [(hv.2.1 hge).1] at hr'
                cases hr'
              · cases hmo : w0.memberOk g u with
                | false =>
                  rw [((hv.2.2 hlt).1 hmo).1] at hr'
                  cases hr'
                  simpa using he0
                | true =>
                  cases hkp : w0.kickPerm g with
                  | false =>
                    rw [(((hv.2.2 hlt).2 hmo).1 hkp).1] at hr'
                    cases hr'
                    simpa using he0
                  | true =>
                    rcases le_or_lt (w0.botRolePos g) (w0.memberRolePos g u) with hpos | hpos
                    · rw [((((hv.2.2 hlt).2 hmo).2 hkp).1 hpos).1] at hr'
                      cases hr'
                      simpa using he0
                    · cases hko : w0.kickOk g u with
                      | true =>
                        rw [(((((hv.2.2 hlt).2 hmo).2 hkp).2 hpos).1 hko).1] at hr'
                        cases hr'
                      | false =>
                        rw [(((((hv.2.2 hlt).2 hmo).2 hkp).2 hpos).2 hko).1] at hr'
                        cases hr'
                        simpa using he0
      · replace hr' : getTarget g u (voiceStateUpdate w0 g0 u0 oc nc b now st).1 =
            some r' := hr'
        rw [voice_getTarget_other w0 g0 u0 oc nc b now st g u hk, hr] at hr'
        cases hr'
        exact le_refl _
  · intro g u d st2 r' hr'
    rw [getTarget_addAccumulated_self] at hr'
    rcases hg : getTarget g u st2 with _ | r0
    · rw [hg] at hr'
      cases hr'
    · rw [hg] at hr'
      cases hr'
      rfl

/-- C5 witness: the amended theorem at a concrete skew-free leave
(session started at 2000, leave at 10000: accumulated 5 grows to 13). -/
theorem C5_monotone_witness : (5 : ℤ) ≤ 13 :=
  (C5_monotone (Op.voice wOff "g" "u" true false false 10000) stC1
      (fun _ _ _ h => Op.noConfusion h)
      (fun w g0 u0 oc nc b now heq rec s0 hget hss => by
        cases heq
        have h2 : getTarget "g" "u" stC1 =
            some (⟨100000, 5, some 2000⟩ : TargetRec) := by decide
        rw [h2] at hget
        cases hget
        cases hss
        decide)).1
    "g" "u" ⟨100000, 5, some 2000⟩ ⟨100000, 13, none⟩ (by decide) (by decide)

/-- C7: once a Target has been deleted, a new leave transition re-read and a
sampler tick are both no-ops for that member: the handler returns `(st, [])`
unchanged with no effect, and the sampler (which only fetches rows with a
non-NULL `session_start`) neither produces a row for the member nor emits
any effect addressed to them. -/
theorem C7_idempotent (w : World) (g u : String) (oldCh newCh isBot : Bool)
    (now now2 : Int) (st : Store) (h : getTarget g u st = none) :
    voiceStateUpdate w g u oldCh newCh isBot now st = (st, []) ∧
    getTarget g u (periodicTick w now2 st).1 = none ∧
    ∀ x ∈ (periodicTick w now2 st).2, Effect.key x ≠ (g, u) := by
  refine ⟨voice_no_target w g u oldCh newCh isBot now st h, ?_, ?_⟩
  · exact (periodicTick_no_target w now2 st g u h).1
  · exact (periodicTick_no_target w now2 st g u h).2.2

/-- C7 witness: a database whose only Target row belongs to another member. -/
theorem C7_idempotent_witness :
    voiceStateUpdate wOn "g" "u" true false false 1000 stC7 = (stC7, []) ∧
    getTarget "g" "u" (periodicTick wOn 9000 stC7).1 = none :=
  ⟨(C7_idempotent wOn "g" "u" true false false 1000 9000 stC7 (by decide)).1,
   (C7_idempotent wOn "g" "u" true false false 1000 9000 stC7 (by decide)).2.1⟩

/-- C8: `/settarget` with `minutes <= 0` is rejected and leaves the whole
database unchanged; with `minutes > 0` it creates or replaces the
Target of the member with `target_seconds = Math.floor(minutes * 60)`,
`accumulated_seconds = 0` and `session_start = NULL`, touching no other row
and no other table. -/
theorem C8_settarget (g u : String) (minutes : ℚ) (st : Store) :
    (minutes ≤ 0 → settargetCommand g u minutes st = (st, false)) ∧
    (0 < minutes →
       (settargetCommand g u minutes st).2 = true ∧
       getTarget g u (settargetCommand g u minutes st).1 =
         some ⟨⌊minutes * 60⌋, 0, none⟩ ∧
       (∀ g2 u2, (g2, u2) ≠ (g, u) →
          getTarget g2 u2 (settargetCommand g u minutes st).1 = getTarget g2 u2 st) ∧
       (settargetCommand g u minutes st).1.daily_goals = st.daily_goals ∧
       (settargetCommand g u minutes st).1.todos = st.todos) := by
  constructor
  · intro hm
    unfold settargetCommand
    rw [if_pos hm]
  · intro hm
    have hm2 : ¬ minutes ≤ 0 := not_le.mpr hm
    unfold settargetCommand
    rw [if_neg hm2]
    refine ⟨rfl, getTarget_setTarget_self g u _ st,
      fun g2 u2 hne => getTarget_setTarget_other g u g2 u2 _ st hne, ?_, ?_⟩
    · show (setTarget g u _ st).daily_goals = st.daily_goals
      unfold setTarget
      split_ifs <;> rfl
    · show (setTarget g u _ st).todos = st.todos
      unfold setTarget
      split_ifs <;> rfl

/-- C8 witness: `/settarget 90` over a database that already holds a Target
with accumulated progress and an open session: replaced by
`⟨5400, 0, NULL⟩`. -/
theorem C8_settarget_witness :
    getTarget "g" "u" (settargetCommand "g" "u" 90 stC1).1 =
      some ⟨⌊(90 : ℚ) * 60⌋, 0, none⟩ :=
  ((C8_settarget "g" "u" 90 stC1).2 (by norm_num)).2.1

/-- C9: for a member with no Target row, neither a presence transition nor a
sampler tick changes their DailyGoal: the handler returns before any
mutation, and the sampler iterates only Target rows with an open session, so
its `addAchievedHours` calls concern other keys only. -/
theorem C9_daily_frame (w : World) (g u : String) (oldCh newCh isBot : Bool)
    (now now2 : Int) (st : Store) (h : getTarget g u st = none) :
    getDailyGoal g u (voiceStateUpdate w g u oldCh newCh isBot now st).1 =
      getDailyGoal g u st ∧
    getDailyGoal g u (periodicTick w now2 st).1 = getDailyGoal g u st := by
  refine ⟨?_, (periodicTick_no_target w now2 st g u h).2.1⟩
  rw [voice_no_target w g u oldCh newCh isBot now st h]

/-- C9 witness: member `("g","u")` holds a DailyGoal but no Target while
another member has an open session; both entry points leave the DailyGoal
untouched. -/
theorem C9_daily_frame_witness :
    getDailyGoal "g" "u" (voiceStateUpdate wOn "g" "u" true false false 1000 stC9).1 =
      getDailyGoal "g" "u" stC9 ∧
    getDailyGoal "g" "u" (periodicTick wOn 9000 stC9).1 = getDailyGoal "g" "u" stC9 :=
  C9_daily_frame wOn "g" "u" true false false 1000 9000 stC9 (by decide)

/-- C10: in every database reachable from the initial (empty) store through
any sequence of program operations, the `session_start` column of every
`daily_goals` row is NULL: `setDailyGoal` writes NULL, `addAchievedHours`
only touches `achieved_hours`, and the only `session_start` writer
(`setSessionStart`) targets the `targets` table. -/
theorem C10_dg_session_null (ops : List Op) (k : Key) (r : DailyGoalRec)
    (hmem : (k, r) ∈ (applyOps ops Store.init).daily_goals) :
    r.session_start = none := by
  refine dgNull_applyOps ops Store.init ?_ (k, r) hmem
  intro e he
  simp [Store.init] at he

/-- C10 witness: after `/setgoal 5`, a sampler tick, and a leave transition,
the stored DailyGoal row still has `session_start = NULL`. -/
theorem C10_dg_session_null_witness :
    ((("g", "u"), (⟨5, 0, none⟩ : DailyGoalRec)) ∈
      (applyOps [Op.setgoal "g" "u" 5] Store.init).daily_goals) ∧
    (⟨5, 0, none⟩ : DailyGoalRec).session_start = none :=
  ⟨by decide,
   C10_dg_session_null [Op.setgoal "g" "u" 5] ("g", "u") ⟨5, 0, none⟩ (by decide)⟩


/-- C3: on a leave transition where the re-read Target is not reached, and
with the member fetchable and the kick action functional, the member is
kicked iff the bot has KickMembers AND the highest role position of the member is
strictly below that of the bot; on removal the kick reason and the DM cite the
same `(accumulated, target)` progress pair (rendered as
`(acc/3600).toFixed(2) / (tgt/3600).toFixed(2) hours`) and the Target row is
deleted; with no kick permission a fallback-channel notice is posted (when a
usable channel exists) and the row survives; when hierarchy blocks, the
member is DMed and the row survives. -/
theorem C3_enforcement (w : World) (g u : String) (now : Int) (st : Store)
    (rec : TargetRec) (hget : getTarget g u st = some rec)
    (hnr : rec.accumulated_seconds + leaveElapsed now rec.session_start <
      rec.target_seconds)
    (hmem : w.memberOk g u = true) (hkok : w.kickOk g u = true) :
    ((∃ a t : Int, Effect.kick g u a t ∈
        (voiceStateUpdate w g u true false false now st).2) ↔
      (w.kickPerm g = true ∧ w.memberRolePos g u < w.botRolePos g)) ∧
    (w.kickPerm g = true → w.memberRolePos g u < w.botRolePos g →
      (voiceStateUpdate w g u true false false now st).2 =
        [Effect.kick g u
           (rec.accumulated_seconds + leaveElapsed now rec.session_start)
           rec.target_seconds,
         Effect.dmKicked g u
           (rec.accumulated_seconds + leaveElapsed now rec.session_start)
           rec.target_seconds] ∧
      getTarget g u (voiceStateUpdate w g u true false false now st).1 = none) ∧
    (w.kickPerm g = false →
      (voiceStateUpdate w g u true false false now st).2 =
        (if w.announceOk g then [Effect.announceNoKick g u] else []) ∧
      getTarget g u (voiceStateUpdate w g u true false false now st).1 =
        some ⟨rec.target_seconds,
              rec.accumulated_seconds + leaveElapsed now rec.session_start, none⟩) ∧
    (w.kickPerm g = true → w.botRolePos g ≤ w.memberRolePos g u →
      (voiceStateUpdate w g u true false false now st).2 = [Effect.dmHierarchy g u] ∧
      getTarget g u (voiceStateUpdate w g u true false false now st).1 =
        some ⟨rec.target_seconds,
              rec.accumulated_seconds + leaveElapsed now rec.session_start, none⟩) := by
  have hb := ((voice_leave_spec w g u now st rec hget).2.2 hnr).2 hmem
  refine ⟨⟨?_, ?_⟩, ?_, ?_, ?_⟩
  · rintro ⟨a, t, hmem2⟩
    cases hkp : w.kickPerm g with
    | false =>
      rw [(hb.1 hkp).2] at hmem2
      split_ifs at hmem2 <;> simp at hmem2
    | true =>
      rcases le_or_lt (w.botRolePos g) (w.memberRolePos g u) with hpos | hpos
      · rw [((hb.2 hkp).1 hpos).2] at hmem2
        simp at hmem2
      · exact ⟨rfl, hpos⟩
  · rintro ⟨hkp, hpos⟩
    have hcl := (((hb.2 hkp).2 hpos).1 hkok).2
    rw [hcl]
    exact ⟨_, _, List.mem_cons_self _ _⟩
  · intro hkp hpos
    have hcl := ((hb.2 hkp).2 hpos).1 hkok
    exact ⟨hcl.2, hcl.1⟩
  · intro hkp
    have h2 := hb.1 hkp
    exact ⟨h2.2, h2.1⟩
  · intro hkp hpos
    have h2 := (hb.2 hkp).1 hpos
    exact ⟨h2.2, h2.1⟩

/-- C3 witness: target 3600 s, 100 s banked, session open since t=1000 ms,
leave at t=1801000 ms (elapsed 1800): the member is kicked with progress
1900/3600 cited in both the kick reason and the DM, and the row is gone. -/
theorem C3_enforcement_witness :
    (voiceStateUpdate wOn "g" "u" true false false 1801000 stC3).2 =
      [Effect.kick "g" "u" 1900 3600, Effect.dmKicked "g" "u" 1900 3600] ∧
    getTarget "g" "u" (voiceStateUpdate wOn "g" "u" true false false 1801000 stC3).1 =
      none :=
  (C3_enforcement wOn "g" "u" 1801000 stC3 ⟨3600, 100, some 1000⟩ (by decide)
    (by decide) rfl rfl).2.1 rfl (by decide)

/-- C4: the daily reset deletes every `daily_goals` row and every `todos`
row unconditionally; rows with `achieved_hours >= goal_hours` trigger no
kick attempt; rows with `achieved_hours < goal_hours` trigger a best-effort
kick attempt and DM (given the guild is cached and the member fetchable),
citing the shortfall `(achieved, goal)`. -/
theorem C4_rollover (w : World) (st : Store) :
    (dailyRollover w st).1.daily_goals = [] ∧
    (dailyRollover w st).1.todos = [] ∧
    (st.dwf → ∀ k r, (k, r) ∈ getAllDailyGoals st →
       r.goal_hours ≤ r.achieved_hours →
       ∀ a b : ℚ, Effect.kickDaily k.1 k.2 a b ∉ (dailyRollover w st).2) ∧
    (∀ k r, (k, r) ∈ getAllDailyGoals st →
       r.achieved_hours < r.goal_hours →
       w.guildOk k.1 = true → w.memberOk k.1 k.2 = true →
       Effect.kickDaily k.1 k.2 r.achieved_hours r.goal_hours ∈
         (dailyRollover w st).2 ∧
       Effect.dmDailyKicked k.1 k.2 r.achieved_hours r.goal_hours ∈
         (dailyRollover w st).2) := by
  refine ⟨rfl, rfl, ?_, ?_⟩
  · intro hwf k r hmem hle a b hmem2
    replace hmem2 : Effect.kickDaily k.1 k.2 a b ∈
        (getAllDailyGoals st).foldl (rolloverStep w) [] := hmem2
    rcases (foldl_rolloverStep_mem w _ [] _).mp hmem2 with
      h | ⟨e, he, hlt2, _, _, hx | hx⟩
    · simp at h
    · injection hx with h1 h2 h3 h4
      have hk : e.1 = k := Prod.ext h1.symm h2.symm
      have heq : e = (k, r) := List.inj_on_of_nodup_map hwf he hmem hk
      rw [heq] at hlt2
      exact absurd hlt2 (not_lt.mpr hle)
    · exact Effect.noConfusion hx
  · intro k r hmem hlt hgk hmo
    constructor
    · exact (foldl_rolloverStep_mem w _ [] _).mpr
        (Or.inr ⟨(k, r), hmem, hlt, hgk, hmo, Or.inl rfl⟩)
    · exact (foldl_rolloverStep_mem w _ [] _).mpr
        (Or.inr ⟨(k, r), hmem, hlt, hgk, hmo, Or.inr rfl⟩)

/-- C4 witness: two DailyGoal rows, one at 3/5 (unmet) and one at 5/5 (met),
plus a todo item: only the unmet row is flagged, and both tables end empty. -/
theorem C4_rollover_witness :
    Effect.kickDaily "g" "a" 3 5 ∈ (dailyRollover wOn stC4).2 ∧
    (∀ a b : ℚ, Effect.kickDaily "g" "b" a b ∉ (dailyRollover wOn stC4).2) ∧
    (dailyRollover wOn stC4).1.daily_goals = [] ∧
    (dailyRollover wOn stC4).1.todos = [] :=
  ⟨((C4_rollover wOn stC4).2.2.2 ("g", "a") ⟨5, 3, none⟩ (List.mem_cons_self _ _)
      (by norm_num) rfl rfl).1,
   fun a b => (C4_rollover wOn stC4).2.2.1 (by decide) ("g", "b") ⟨5, 5, none⟩
     (List.mem_cons_of_mem _ (List.mem_cons_self _ _)) (by norm_num) a b,
   (C4_rollover wOn stC4).1,
   (C4_rollover wOn stC4).2.1⟩

/-- C6: a sampler tick never rewrites the fields of any Target row — the lookup of every
row is either byte-for-byte unchanged or gone — and for an open
session it computes `projectedTotal = accumulated_seconds + elapsed` purely
for the completion check: below target the row is returned unchanged; at or
above target (with the guild cached) the row is deleted, after a completion
DM when the member is fetchable. -/
theorem C6_sampler_frame (w : World) (now : Int) (st : Store) (g u : String)
    (rec : TargetRec) (hwf : st.twf) (hget : getTarget g u st = some rec) :
    (∀ g2 u2 : String,
       getTarget g2 u2 (periodicTick w now st).1 = getTarget g2 u2 st ∨
       getTarget g2 u2 (periodicTick w now st).1 = none) ∧
    (rec.session_start = none → getTarget g u (periodicTick w now st).1 = some rec) ∧
    (∀ s0 : Int, rec.session_start = some s0 →
       (rec.accumulated_seconds + Int.fdiv (now - s0) 1000 < rec.target_seconds →
          getTarget g u (periodicTick w now st).1 = some rec) ∧
       (rec.target_seconds ≤ rec.accumulated_seconds + Int.fdiv (now - s0) 1000 →
          w.guildOk g = true →
          getTarget g u (periodicTick w now st).1 = none ∧
          (w.memberOk g u = true →
             Effect.dmReachedSampler g u rec.target_seconds ∈
               (periodicTick w now st).2))) := by
  have h := periodicTick_spec w now st g u rec hwf hget
  refine ⟨?_, fun hss => (h.1 hss).1, fun s0 hss =>
    ⟨fun hlt => (h.2 s0 hss).2.1 hlt,
     fun hge hgk => ((h.2 s0 hss).2.2 hge).2 hgk⟩⟩
  intro g2 u2
  exact foldl_tickStep_getTarget_cases w now (getAllActiveSessions st) (st, []) g2 u2

/-- C6 witness: target 600 s, session open since t=0; the tick at
t=600000 ms projects 600 ≥ 600, DMs the member and deletes the row. -/
theorem C6_sampler_frame_witness :
    getTarget "g" "u" (periodicTick wOn 600000 stC6).1 = none ∧
    Effect.dmReachedSampler "g" "u" 600 ∈ (periodicTick wOn 600000 stC6).2 := by
  have h := ((C6_sampler_frame wOn 600000 stC6 "g" "u" ⟨600, 0, some 0⟩ (by decide)
    (by decide)).2.2 0 rfl).2 (by decide) rfl
  exact ⟨h.1, h.2 rfl⟩


/-- C2, counterexample: the claim says achievedHours grows strictly more
than the real session duration for any n ≥ 2 consecutive ticks.  With the
session starting at t=0 and the two ticks at t=500 and t=10500 ms, the
ticks add `floor(0.5) + floor(10.5) = 0 + 10` seconds = `10/3600` hours,
while the real duration from session start to the last tick is 10.5 s
(`(10500/1000)/3600` hours): the increase is strictly LESS. -/
theorem C2_counterexample :
    getDailyGoal "g" "u" (runTicks wOn 500 2 stC2) =
      some ⟨1000, (10 : ℚ) / 3600, none⟩ ∧
    ¬ ((10 : ℚ) / 3600 > ((10500 : ℚ) / 1000) / 3600) := by
  constructor
  · show getDailyGoal "g" "u" (runTicks wOn 500 2
      (⟨[(("g", "u"), ⟨1000000, 0, some 0⟩)], [(("g", "u"), ⟨1000, 0, none⟩)],
        [], 1⟩ : Store)) = some ⟨1000, (10 : ℚ) / 3600, none⟩
    rw [runTicks_singleton wOn "g" "u" 1000000 0 0 1000 0 none [] 1 2 500 (by decide)]
    have hs : (∑ i in Finset.range 2,
        Int.fdiv (500 + 10000 * (i : ℤ) - 0) 1000) = 10 := by decide
    show some (⟨1000, 0 + ((∑ i in Finset.range 2,
        Int.fdiv (500 + 10000 * (i : ℤ) - 0) 1000 : ℤ) : ℚ) / 3600, none⟩ :
          DailyGoalRec) = some ⟨1000, (10 : ℚ) / 3600, none⟩
    rw [hs]
    norm_num
  · norm_num

/-- C2 (amended): each sampler tick adds the full elapsed time since
`sessionStart` — not the delta since the previous tick — to achievedHours,
because the sampler never advances `sessionStart`; across `n` consecutive
10-second ticks (none reaching the target) the added amount is
`Σ floor((t1 + 10000·i − s)/1000)/3600` hours, and this strictly exceeds
the real session duration `(t_last − s)` whenever n ≥ 3, or n = 2 and the
first tick comes at least 1 s after the session start. -/
theorem C2_overcount (w : World) (g u : String) (T A s : Int) (G H : ℚ)
    (dss : Option Int) (td : List TodoRec) (m : Nat) (n : Nat) (t1 : Int)
    (hs : s ≤ t1) (hn : 2 ≤ n) (hcase : 1000 ≤ t1 - s ∨ 3 ≤ n)
    (hno : ∀ i : Nat, i < n → A + Int.fdiv (t1 + 10000 * i - s) 1000 < T) :
    getDailyGoal g u (runTicks w t1 n
        ⟨[((g, u), ⟨T, A, some s⟩)], [((g, u), ⟨G, H, dss⟩)], td, m⟩) =
      some ⟨G, H + ((∑ i in Finset.range n,
          Int.fdiv (t1 + 10000 * i - s) 1000 : Int) : ℚ) / 3600, dss⟩ ∧
    getTarget g u (runTicks w t1 n
        ⟨[((g, u), ⟨T, A, some s⟩)], [((g, u), ⟨G, H, dss⟩)], td, m⟩) =
      some ⟨T, A, some s⟩ ∧
    ((t1 + 10000 * ((n : Int) - 1) - s : Int) : ℚ) / 3600000 <
      ((∑ i in Finset.range n, Int.fdiv (t1 + 10000 * i - s) 1000 : Int) : ℚ) / 3600 := by
  rw [runTicks_singleton w g u T A s G H dss td m n t1 hno]
  refine ⟨?_, ?_, ?_⟩
  · unfold getDailyGoal
    rw [List.find?_cons_of_pos _ (by simp)]
    rfl
  · unfold getTarget
    rw [List.find?_cons_of_pos _ (by simp)]
    rfl
  · have hZ := sampler_overcount n (t1 - s) (by linarith) hn
      (by rcases hcase with h | h
          · exact Or.inl (by linarith)
          · exact Or.inr h)
    have hsum : (∑ i in Finset.range n, Int.fdiv (t1 - s + 10000 * i) 1000) =
        ∑ i in Finset.range n, Int.fdiv (t1 + 10000 * i - s) 1000 :=
      Finset.sum_congr rfl (fun i _ => by congr 1; ring)
    rw [hsum] at hZ
    have hZ2 : (t1 + 10000 * ((n : Int) - 1) - s) <
        1000 * (∑ i in Finset.range n, Int.fdiv (t1 + 10000 * i - s) 1000) := by
      linarith
    have h2 : ((t1 + 10000 * ((n : Int) - 1) - s : Int) : ℚ) <
        1000 * ((∑ i in Finset.range n,
          Int.fdiv (t1 + 10000 * i - s) 1000 : Int) : ℚ) := by
      exact_mod_cast hZ2
    rw [div_lt_div_iff (by norm_num) (by norm_num)]
    linarith

/-- C2 witness: three ticks at t=0, 10000, 20000 on a session started at
s=0 with a far-away target: the over-count inequality holds. -/
theorem C2_overcount_witness :
    (((0 : ℤ) + 10000 * (((3 : ℕ) : ℤ) - 1) - 0 : ℤ) : ℚ) / 3600000 <
      ((∑ i in Finset.range 3,
        Int.fdiv ((0 : ℤ) + 10000 * (i : ℤ) - 0) 1000 : ℤ) : ℚ) / 3600 :=
  (C2_overcount wOn "g" "u" 1000000 0 0 1000 0 none [] 1 3 0 (by decide) (by decide)
    (Or.inr (by decide)) (by decide)).2.2


end VCBot
